import Mathlib

/-!
Verification of the near-duplicate log-detection engine
(`v1/qdrant/src`): the MinHash/LSH fingerprinter and its text
normalizer (`basic/minhash.py`), the exact Jaccard metric, the
filter-spec compiler (`basic/filter_adapter.py`), and the ingestion /
relink pipeline (`log_ingestion_handler.py`, `basic/vector_store.py`,
`lookup_db_store.py`).  Python dictionaries are modelled as
insertion-ordered association lists, Python exceptions as `Except`,
machine words as `Nat` with explicit modular reduction, and similarity
scores as rationals (they are only ever compared and copied).
-/

namespace HTLL

/-- Model of a Python value as stored in entry metadata, filter specs and
payloads: `None`, strings, ints, bools, lists and (insertion-ordered) dicts. -/
inductive PyObj where
  | noneV : PyObj
  | strV (s : String) : PyObj
  | intV (n : Int) : PyObj
  | boolV (b : Bool) : PyObj
  | listV (xs : List PyObj) : PyObj
  | dictV (entries : List (String × PyObj)) : PyObj

/-- Python dict lookup `d.get(k)` on an insertion-ordered association list. -/
def dictGet (d : List (String × PyObj)) (k : String) : Option PyObj :=
  match d with
  | [] => none
  | (k', v) :: rest => if k' = k then some v else dictGet rest k

/-- Python dict assignment `d[k] = v`: replaces in place if the key exists
(keeping its position), otherwise appends at the end. -/
def dictSet (d : List (String × PyObj)) (k : String) (v : PyObj) :
    List (String × PyObj) :=
  match d with
  | [] => [(k, v)]
  | (k', v') :: rest =>
      if k' = k then (k, v) :: rest else (k', v') :: dictSet rest k v

/-- ASCII lowercasing of one character (codepoints 65–90 shift by 32), as
Python `str.lower` acts on the ASCII inputs this code handles. -/
def lowerChar (c : Char) : Char :=
  if 65 ≤ c.toNat ∧ c.toNat ≤ 90 then Char.ofNat (c.toNat + 32) else c

/-- Python `str.lower` over the character list of a string. -/
def lowerStr (s : List Char) : List Char := s.map lowerChar

/-- Python regex class `\s` (ASCII whitespace). -/
def isPySpace (c : Char) : Bool :=
  c = ' ' || c = '\t' || c = '\n' || c = '\r' || c = '\x0b' || c = '\x0c'

/-- Embedding of `re.sub(r"\s+", " ", s)`: every maximal run of whitespace
characters is replaced by a single space. -/
def collapseWs : List Char → List Char
  | [] => []
  | [c] => if isPySpace c then [' '] else [c]
  | c1 :: c2 :: rest =>
      if isPySpace c1 then
        if isPySpace c2 then collapseWs (c2 :: rest)
        else ' ' :: collapseWs (c2 :: rest)
      else c1 :: collapseWs (c2 :: rest)

/-- Python `str.strip()`: drop whitespace from both ends. -/
def stripStr (s : List Char) : List Char :=
  ((s.dropWhile (fun c => isPySpace c)).reverse.dropWhile
    (fun c => isPySpace c)).reverse

/-- Exact Jaccard similarity of two shingle sets
(`LSHMinHashEmbedder.jaccard`): `1.0` if both sets are empty, `0.0` if
exactly one is empty, otherwise `|A ∩ B| / |A ∪ B|`. -/
def jaccard (a b : Finset ℕ) : ℚ :=
  if a = ∅ ∧ b = ∅ then 1
  else if a = ∅ ∨ b = ∅ then 0
  else ((a ∩ b).card : ℚ) / ((a ∪ b).card : ℚ)

/-- Configuration of `LSHMinHashEmbedder` after a successful construction.
`prime` and `maxHash` are the fixed constants of the source. -/
structure EmbCfg where
  shingle_size : ℕ
  num_hashes : ℕ
  bands : ℕ
  rows_per_band : ℕ
  seed : Int
  normalize_enabled : Bool
  lowercase : Bool
  collapse_whitespace : Bool
  stop_short_lines : Int

/-- The fixed modulus of the hash family: a prime just above `2^32`. -/
def lshPrime : ℕ := 4294967311

/-- The sentinel value `(1 <<< 32) - 1` used to initialise signatures. -/
def lshMaxHash : ℕ := 4294967295

/-- Embedding of `LSHMinHashEmbedder.__init__`: validates
`shingle_size > 0`, `num_hashes > 0`, `bands > 0` and that `bands`
divides `num_hashes` exactly, raising `ValueError` (the spec's
`ConfigurationError`) otherwise. -/
def mkEmbedder (shingle_size num_hashes bands : Int) (seed : Int)
    (normalize lowercase collapse_whitespace : Bool)
    (stop_short_lines : Int) : Except String EmbCfg :=
  if shingle_size ≤ 0 then Except.error "shingle_size must be > 0"
  else if num_hashes ≤ 0 then Except.error "num_hashes must be > 0"
  else if bands ≤ 0 ∨ num_hashes % bands ≠ 0 then
    Except.error "bands must be > 0 and must divide num_hashes exactly"
  else Except.ok
    { shingle_size := shingle_size.toNat
      num_hashes := num_hashes.toNat
      bands := bands.toNat
      rows_per_band := num_hashes.toNat / bands.toNat
      seed := seed
      normalize_enabled := normalize
      lowercase := lowercase
      collapse_whitespace := collapse_whitespace
      stop_short_lines := stop_short_lines }

/-- Addition of 64-bit machine words (`Nat` with explicit reduction). -/
def add64 (x y : ℕ) : ℕ := (x + y) % 18446744073709551616

/-- Right rotation of a 64-bit word. -/
def rotr64 (x n : ℕ) : ℕ :=
  ((x >>> n) ||| (x <<< (64 - n))) % 18446744073709551616

/-- Addition of 32-bit machine words. -/
def add32 (x y : ℕ) : ℕ := (x + y) % 4294967296

/-- Left rotation of a 32-bit word. -/
def rotl32 (x n : ℕ) : ℕ := ((x <<< n) ||| (x >>> (32 - n))) % 4294967296

/-- UTF-8 encoding of one character (as byte values). -/
def utf8Char (c : Char) : List ℕ :=
  let n := c.toNat
  if n < 128 then [n]
  else if n < 2048 then [192 + n / 64, 128 + n % 64]
  else if n < 65536 then [224 + n / 4096, 128 + (n / 64) % 64, 128 + n % 64]
  else [240 + n / 262144, 128 + (n / 4096) % 64, 128 + (n / 64) % 64,
        128 + n % 64]

/-- Python `s.encode("utf-8")` as a byte list. -/
def utf8Bytes (s : String) : List ℕ := (s.toList.map utf8Char).flatten

/-- Little-endian interpretation of a byte list, `int.from_bytes(_, "little")`. -/
def bytesToNatLE : List ℕ → ℕ
  | [] => 0
  | b :: rest => b + 256 * bytesToNatLE rest

/-- Little-endian byte serialisation of `n` into `k` bytes. -/
def natToBytesLE : ℕ → ℕ → List ℕ
  | 0, _ => []
  | k + 1, n => (n % 256) :: natToBytesLE k (n / 256)

/-- Lower-case hexadecimal digit. -/
def hexDigit (n : ℕ) : Char :=
  if n < 10 then Char.ofNat (48 + n) else Char.ofNat (87 + n)

/-- Lower-case hex string of a byte list (`.hexdigest()`). -/
def bytesToHex (bs : List ℕ) : String :=
  String.mk ((bs.map (fun b => [hexDigit (b / 16), hexDigit (b % 16)])).flatten)

/-- Splitting loop for `chunks`, structurally recursive on a fuel that the
caller sets to the list length (each step emits one chunk and consumes at
least one element, so the fuel is never exhausted). -/
def chunksAux (k : ℕ) : ℕ → List ℕ → List (List ℕ)
  | _, [] => []
  | 0, _ :: _ => []
  | fuel + 1, b :: rest =>
      ((b :: rest).take (k + 1)) :: chunksAux k fuel ((b :: rest).drop (k + 1))

/-- Split a byte list into chunks of `k + 1` bytes (the last may be short). -/
def chunks (k : ℕ) (l : List ℕ) : List (List ℕ) := chunksAux k l.length l

/-- BLAKE2b initialisation vector. -/
def blakeIV : List ℕ :=
  [7640891576956012808, 13503953896175478587, 4354685564936845355,
   11912009170470909681, 5840696475078001361, 11170449401992604703,
   2270897969802886507, 6620516959819538809]

/-- BLAKE2b message schedule permutations. -/
def blakeSigma : List (List ℕ) :=
  [[0, 1, 2, 3, 4, 5, 6, 7, 8, 9, 10, 11, 12, 13, 14, 15],
   [14, 10, 4, 8, 9, 15, 13, 6, 1, 12, 0, 2, 11, 7, 5, 3],
   [11, 8, 12, 0, 5, 2, 15, 13, 10, 14, 3, 6, 7, 1, 9, 4],
   [7, 9, 3, 1, 13, 12, 11, 14, 2, 6, 5, 10, 4, 0, 15, 8],
   [9, 0, 5, 7, 2, 4, 10, 15, 14, 1, 11, 12, 6, 8, 3, 13],
   [2, 12, 6, 10, 0, 11, 8, 3, 4, 13, 7, 5, 15, 14, 1, 9],
   [12, 5, 1, 15, 14, 13, 4, 10, 0, 7, 6, 3, 9, 2, 8, 11],
   [13, 11, 7, 14, 12, 1, 3, 9, 5, 0, 15, 4, 8, 6, 2, 10],
   [6, 15, 14, 9, 11, 3, 0, 8, 12, 2, 13, 7, 1, 4, 10, 5],
   [10, 2, 8, 4, 7, 6, 1, 5, 15, 11, 9, 14, 3, 12, 13, 0]]

/-- BLAKE2b mixing function G on the 16-word working vector. -/
def gmix (v : List ℕ) (a b c d x y : ℕ) : List ℕ :=
  let va := add64 (add64 (v.getD a 0) (v.getD b 0)) x
  let vd := rotr64 ((v.getD d 0) ^^^ va) 32
  let vc := add64 (v.getD c 0) vd
  let vb := rotr64 ((v.getD b 0) ^^^ vc) 24
  let va2 := add64 (add64 va vb) y
  let vd2 := rotr64 (vd ^^^ va2) 16
  let vc2 := add64 vc vd2
  let vb2 := rotr64 (vb ^^^ vc2) 63
  (((v.set a va2).set b vb2).set c vc2).set d vd2

/-- One BLAKE2b round: eight G applications under the schedule for round `r`. -/
def blakeRound (m : List ℕ) (v : List ℕ) (r : ℕ) : List ℕ :=
  let s := blakeSigma.getD (r % 10) []
  let mAt := fun (j : ℕ) => m.getD (s.getD j 0) 0
  let v := gmix v 0 4 8 12 (mAt 0) (mAt 1)
  let v := gmix v 1 5 9 13 (mAt 2) (mAt 3)
  let v := gmix v 2 6 10 14 (mAt 4) (mAt 5)
  let v := gmix v 3 7 11 15 (mAt 6) (mAt 7)
  let v := gmix v 0 5 10 15 (mAt 8) (mAt 9)
  let v := gmix v 1 6 11 12 (mAt 10) (mAt 11)
  let v := gmix v 2 7 8 13 (mAt 12) (mAt 13)
  gmix v 3 4 9 14 (mAt 14) (mAt 15)

/-- Identity on word vectors, stated through a trivially true bound check;
evaluating it at every round boundary keeps kernel reduction of the hash
shallow (each element is forced and cached instead of accumulating one
long lazy dependency chain). -/
def forceWords (v : List ℕ) : List ℕ :=
  if v.all (fun w => w ≤ w) then v else v

/-- BLAKE2b compression of one 128-byte block with byte counter `t`. -/
def blakeCompress (h : List ℕ) (block : List ℕ) (t : ℕ) (last : Bool) :
    List ℕ :=
  let m := (List.range 16).map (fun i => bytesToNatLE ((block.drop (8 * i)).take 8))
  let v := h ++ blakeIV
  let v := v.set 12 ((v.getD 12 0) ^^^ (t % 18446744073709551616))
  let v := v.set 13 ((v.getD 13 0) ^^^ (t / 18446744073709551616 % 18446744073709551616))
  let v := if last then v.set 14 ((v.getD 14 0) ^^^ 18446744073709551615) else v
  let v := (List.range 12).foldl (fun v r => forceWords (blakeRound m v r)) v
  forceWords ((List.range 8).map
    (fun i => (h.getD i 0) ^^^ (v.getD i 0) ^^^ (v.getD (i + 8) 0)))

/-- Zero-pad a block to 128 bytes. -/
def padBlock (blk : List ℕ) : List ℕ := blk ++ List.replicate (128 - blk.length) 0

/-- Fold BLAKE2b compression over the message blocks, tracking the byte
counter; the final block is padded and flagged. -/
def blakeFold (total : ℕ) : List ℕ → ℕ → List (List ℕ) → List ℕ
  | h, _, [] => h
  | h, _, [blk] => blakeCompress h (padBlock blk) total true
  | h, done, blk :: b2 :: rest =>
      blakeFold total (blakeCompress h blk (done + 128) false) (done + 128)
        (b2 :: rest)

/-- Unkeyed BLAKE2b with the given digest size in bytes (as
`hashlib.blake2b(msg, digest_size=d).digest()`). -/
def blake2b (digestSize : ℕ) (msg : List ℕ) : List ℕ :=
  let h0 := blakeIV.set 0 ((blakeIV.getD 0 0) ^^^ (16842752 ^^^ digestSize))
  let hfin :=
    if msg.length = 0 then blakeCompress h0 (List.replicate 128 0) 0 true
    else blakeFold msg.length h0 0 (chunks 127 msg)
  ((hfin.map (fun w => natToBytesLE 8 w)).flatten).take digestSize

/-- MD5 round constants. -/
def md5K : List ℕ :=
  [3614090360, 3905402710, 606105819, 3250441966, 4118548399, 1200080426,
   2821735955, 4249261313, 1770035416, 2336552879, 4294925233, 2304563134,
   1804603682, 4254626195, 2792965006, 1236535329, 4129170786, 3225465664,
   643717713, 3921069994, 3593408605, 38016083, 3634488961, 3889429448,
   568446438, 3275163606, 4107603335, 1163531501, 2850285829, 4243563512,
   1735328473, 2368359562, 4294588738, 2272392833, 1839030562, 4259657740,
   2763975236, 1272893353, 4139469664, 3200236656, 681279174, 3936430074,
   3572445317, 76029189, 3654602809, 3873151461, 530742520, 3299628645,
   4096336452, 1126891415, 2878612391, 4237533241, 1700485571, 2399980690,
   4293915773, 2240044497, 1873313359, 4264355552, 2734768916, 1309151649,
   4149444226, 3174756917, 718787259, 3951481745]

/-- MD5 per-round shift amounts. -/
def md5S : List ℕ :=
  [7, 12, 17, 22, 7, 12, 17, 22, 7, 12, 17, 22, 7, 12, 17, 22,
   5, 9, 14, 20, 5, 9, 14, 20, 5, 9, 14, 20, 5, 9, 14, 20,
   4, 11, 16, 23, 4, 11, 16, 23, 4, 11, 16, 23, 4, 11, 16, 23,
   6, 10, 15, 21, 6, 10, 15, 21, 6, 10, 15, 21, 6, 10, 15, 21]

/-- State of the MD5 compression function. -/
structure MD5State where
  a : ℕ
  b : ℕ
  c : ℕ
  d : ℕ

/-- Nonlinear function and message index for MD5 round `i`. -/
def md5FG (i b c d : ℕ) : ℕ × ℕ :=
  if i < 16 then ((b &&& c) ||| ((b ^^^ 4294967295) &&& d), i)
  else if i < 32 then ((d &&& b) ||| ((d ^^^ 4294967295) &&& c), (5 * i + 1) % 16)
  else if i < 48 then (b ^^^ c ^^^ d, (3 * i + 5) % 16)
  else (c ^^^ (b ||| (d ^^^ 4294967295)), (7 * i) % 16)

/-- One MD5 round step. -/
def md5Step (m : List ℕ) (st : MD5State) (i : ℕ) : MD5State :=
  let fg := md5FG i st.b st.c st.d
  let f2 := add32 (add32 (add32 fg.1 st.a) (md5K.getD i 0)) (m.getD fg.2 0)
  ⟨st.d, add32 st.b (rotl32 f2 (md5S.getD i 0)), st.b, st.c⟩

/-- MD5 compression of one 64-byte block. -/
def md5Compress (st : MD5State) (block : List ℕ) : MD5State :=
  let m := (List.range 16).map (fun i => bytesToNatLE ((block.drop (4 * i)).take 4))
  let r := (List.range 64).foldl (md5Step m) st
  ⟨add32 st.a r.a, add32 st.b r.b, add32 st.c r.c, add32 st.d r.d⟩

/-- MD5 padding: `0x80`, zeros to 56 mod 64, then the 64-bit bit length. -/
def md5Pad (msg : List ℕ) : List ℕ :=
  let n := msg.length
  let z := (183 - (n % 64)) % 64
  msg ++ [128] ++ List.replicate z 0 ++ natToBytesLE 8 ((8 * n) % 18446744073709551616)

/-- MD5 hex digest of a byte list (`hashlib.md5(_).hexdigest()`). -/
def md5Hex (msg : List ℕ) : String :=
  let st := (chunks 63 (md5Pad msg)).foldl md5Compress
    ⟨1732584193, 4023233417, 2562383102, 271733878⟩
  bytesToHex (natToBytesLE 4 st.a ++ natToBytesLE 4 st.b ++
    natToBytesLE 4 st.c ++ natToBytesLE 4 st.d)

/-- Embedding of `utils.hash_text_to_string`: the MD5 hex digest of the
UTF-8 encoded text. -/
def hash_text_to_string (text : String) : String := md5Hex (utf8Bytes text)

/-- Embedding of `LSHMinHashEmbedder._stable_u32`: 32-bit BLAKE2b digest of
the string, read little-endian. -/
def stable_u32 (s : String) : ℕ := bytesToNatLE (blake2b 4 (utf8Bytes s))

/-- Pair `(a_i, b_i)` of `LSHMinHashEmbedder._make_hash_params`, derived
from `blake2b(f"{seed}:{i}", digest_size=16)`. -/
def hashParamPair (seed : Int) (i : ℕ) : ℕ × ℕ :=
  let h := blake2b 16 (utf8Bytes (toString seed ++ ":" ++ toString i))
  (bytesToNatLE (h.take 8) ||| 1, bytesToNatLE (h.drop 8))

/-- Embedding of `LSHMinHashEmbedder._make_hash_params`. -/
def make_hash_params (k : ℕ) (seed : Int) : List ℕ × List ℕ :=
  ((List.range k).map (fun i => (hashParamPair seed i).1),
   (List.range k).map (fun i => (hashParamPair seed i).2))

/-- One item of a regex character class: a single character or a range. -/
inductive CItem where
  | single (c : Char) : CItem
  | range (lo hi : Char) : CItem

/-- Abstract syntax of the Python regular expressions used by
`LSHMinHashEmbedder._preprocess`: literals, classes, concatenation,
alternation (leftmost preference), greedy counted repetition, word
boundaries, lookahead and capture groups. -/
inductive Rx where
  | eps : Rx
  | dot : Rx
  | lit (c : Char) : Rx
  | cls (neg : Bool) (items : List CItem) : Rx
  | cat (a b : Rx) : Rx
  | alt (a b : Rx) : Rx
  | rep (a : Rx) (lo : ℕ) (hi : Option ℕ) : Rx
  | wb : Rx
  | ahead (a : Rx) : Rx
  | grp (n : ℕ) (a : Rx) : Rx

/-- Word character for `\b` (`[A-Za-z0-9_]`, ASCII). -/
def isWordChar (c : Char) : Bool :=
  ('a' ≤ c && c ≤ 'z') || ('A' ≤ c && c ≤ 'Z') || ('0' ≤ c && c ≤ '9') || c = '_'

/-- Does a class item match a character (exactly)? -/
def citemMatch (it : CItem) (c : Char) : Bool :=
  match it with
  | CItem.single c' => c' = c
  | CItem.range lo hi => lo ≤ c && c ≤ hi

/-- ASCII case flip: swap a letter's case, leave other characters alone. -/
def flipCase (c : Char) : Char :=
  if 'a' ≤ c && c ≤ 'z' then Char.ofNat (c.toNat - 32)
  else if 'A' ≤ c && c ≤ 'Z' then Char.ofNat (c.toNat + 32)
  else c

/-- Class match, honouring a pattern-level `re.IGNORECASE` flag and
negation (negation applies after case folding, as in Python). -/
def clsMatch (ci : Bool) (neg : Bool) (items : List CItem) (c : Char) : Bool :=
  let hit := fun c => items.any (fun it => citemMatch it c)
  let m := if ci then hit c || hit (flipCase c) else hit c
  if neg then !m else m

/-- Captured groups: group number to captured text (latest first). -/
def getCap (caps : List (ℕ × List Char)) (n : ℕ) : List Char :=
  match caps.find? (fun p => p.1 = n) with
  | some p => p.2
  | none => []

/-- Backtracking regex matcher in continuation-passing style, with Python
semantics: leftmost alternation preference, greedy repetition, atomic
lookahead, `\b` via the previous character, and a fuel bound on recursion
depth (never reached by the fixed patterns on the inputs considered). -/
def mrun (ci : Bool) : ℕ → Rx → Option Char → List Char → List (ℕ × List Char) →
    (Option Char → List Char → List (ℕ × List Char) →
      Option (List Char × List (ℕ × List Char))) →
    Option (List Char × List (ℕ × List Char))
  | 0, _, _, _, _, _ => none
  | fuel + 1, rx, prev, inp, caps, k =>
    match rx with
    | Rx.eps => k prev inp caps
    | Rx.dot =>
      match inp with
      | [] => none
      | c :: rest => if c = '\n' then none else k (some c) rest caps
    | Rx.lit c0 =>
      match inp with
      | [] => none
      | c :: rest =>
        if (if ci then lowerChar c0 = lowerChar c else c0 = c) then
          k (some c) rest caps
        else none
    | Rx.cls neg items =>
      match inp with
      | [] => none
      | c :: rest => if clsMatch ci neg items c then k (some c) rest caps else none
    | Rx.cat a b =>
      mrun ci fuel a prev inp caps (fun p i cp => mrun ci fuel b p i cp k)
    | Rx.alt a b =>
      match mrun ci fuel a prev inp caps k with
      | some r => some r
      | none => mrun ci fuel b prev inp caps k
    | Rx.rep a lo hi =>
      match lo with
      | m + 1 =>
        mrun ci fuel a prev inp caps (fun p i cp =>
          mrun ci fuel (Rx.rep a m (hi.map (fun h => h - 1))) p i cp k)
      | 0 =>
        match hi with
        | some 0 => k prev inp caps
        | _ =>
          match mrun ci fuel a prev inp caps (fun p i cp =>
              mrun ci fuel (Rx.rep a 0 (hi.map (fun h => h - 1))) p i cp k) with
          | some r => some r
          | none => k prev inp caps
    | Rx.wb =>
      let left := match prev with | some c => isWordChar c | none => false
      let right := match inp with | c :: _ => isWordChar c | [] => false
      if left ≠ right then k prev inp caps else none
    | Rx.ahead a =>
      match mrun ci fuel a prev inp caps (fun _ _ cp => some ([], cp)) with
      | some (_, cp) => k prev inp cp
      | none => none
    | Rx.grp n a =>
      mrun ci fuel a prev inp caps (fun p i cp =>
        k p i ((n, inp.take (inp.length - i.length)) :: cp))

/-- Depth bound for the matcher; ample for the fixed patterns and the
inputs evaluated concretely in this development. -/
def rxFuel : ℕ := 2000

/-- Attempt a match of `rx` at the head of `s` (with `prev` the character
before `s`); on success return the unmatched suffix and the captures. -/
def rxTry (ci : Bool) (rx : Rx) (prev : Option Char) (s : List Char) :
    Option (List Char × List (ℕ × List Char)) :=
  mrun ci rxFuel rx prev s [] (fun _ i cp => some (i, cp))

/-- Scanning loop of `re.sub`: find leftmost matches on the original text,
replace each, and continue after the matched text. -/
def subScan (ci : Bool) (rx : Rx) (repl : List (ℕ × List Char) → List Char) :
    ℕ → Option Char → List Char → List Char
  | 0, _, s => s
  | n + 1, prev, s =>
    match rxTry ci rx prev s with
    | some (rest, caps) =>
      let len := s.length - rest.length
      if len = 0 then
        match s with
        | [] => repl caps
        | c :: tail => repl caps ++ c :: subScan ci rx repl n (some c) tail
      else repl caps ++ subScan ci rx repl n ((s.take len).getLast?) rest
    | none =>
      match s with
      | [] => []
      | c :: tail => c :: subScan ci rx repl n (some c) tail

/-- Python `pattern.sub(repl, s)` with a replacement function. -/
def rxSub (ci : Bool) (rx : Rx) (repl : List (ℕ × List Char) → List Char)
    (s : List Char) : List Char :=
  subScan ci rx repl (s.length + 1) none s

/-- `pattern.sub` with a constant replacement string. -/
def rxSubC (ci : Bool) (rx : Rx) (r : String) (s : List Char) : List Char :=
  rxSub ci rx (fun _ => r.toList) s

/-- Concatenation of a pattern list. -/
def rcat (l : List Rx) : Rx := l.foldr Rx.cat Rx.eps

/-- Literal string pattern. -/
def rlit (s : String) : Rx := rcat (s.toList.map Rx.lit)

/-- Pattern `a+`. -/
def rplus (a : Rx) : Rx := Rx.rep a 1 none

/-- Pattern `a*`. -/
def rstar (a : Rx) : Rx := Rx.rep a 0 none

/-- Pattern `a?`. -/
def ropt (a : Rx) : Rx := Rx.rep a 0 (some 1)

/-- Pattern `a{n}`. -/
def rexact (a : Rx) (n : ℕ) : Rx := Rx.rep a n (some n)

/-- Alternation of a list in source order (leftmost preferred). -/
def ralts (l : List Rx) : Rx :=
  match l with
  | [] => Rx.eps
  | x :: xs => xs.foldl Rx.alt x

/-- Class `\d`. -/
def cDigit : Rx := Rx.cls false [CItem.range '0' '9']

/-- Items of `[0-9a-f]` (case handled by the pattern's `re.I` flag). -/
def hexItems : List CItem := [CItem.range '0' '9', CItem.range 'a' 'f']

/-- Class `[0-9a-f]`. -/
def cHex : Rx := Rx.cls false hexItems

/-- Items of `\s`. -/
def wsItems : List CItem :=
  [CItem.single ' ', CItem.single '\t', CItem.single '\n', CItem.single '\r',
   CItem.single '\x0b', CItem.single '\x0c']

/-- The apostrophe character (appears in several negated classes). -/
def apos : Char := Char.ofNat 39

/-- `RE_UUID` (with `re.I`):
`\b[0-9a-f]{8}-[0-9a-f]{4}-[1-5][0-9a-f]{3}-[89ab][0-9a-f]{3}-[0-9a-f]{12}\b`. -/
def reUUID : Rx :=
  rcat [Rx.wb, rexact cHex 8, Rx.lit '-', rexact cHex 4, Rx.lit '-',
    Rx.cls false [CItem.range '1' '5'], rexact cHex 3, Rx.lit '-',
    Rx.cls false [CItem.single '8', CItem.single '9', CItem.single 'a',
      CItem.single 'b'],
    rexact cHex 3, Rx.lit '-', rexact cHex 12, Rx.wb]

/-- `RE_HEX_WORD` (with `re.I`): `\b0x[0-9a-f]+\b`. -/
def reHexWord : Rx :=
  rcat [Rx.wb, Rx.lit '0', Rx.lit 'x', rplus cHex, Rx.wb]

/-- `RE_HEX_LONG` (with `re.I`): `\b[0-9a-f]{16,}\b`. -/
def reHexLong : Rx := rcat [Rx.wb, Rx.rep cHex 16 none, Rx.wb]

/-- One IPv4 octet: `(?:25[0-5]|2[0-4]\d|1?\d?\d)`. -/
def reOctet : Rx :=
  ralts [rcat [rlit "25", Rx.cls false [CItem.range '0' '5']],
         rcat [Rx.lit '2', Rx.cls false [CItem.range '0' '4'], cDigit],
         rcat [ropt (Rx.lit '1'), ropt cDigit, cDigit]]

/-- `RE_IPv4`: `\b(?:(?:25[0-5]|2[0-4]\d|1?\d?\d)\.){3}(?:...)\b`. -/
def reIPv4 : Rx :=
  rcat [Rx.wb, rexact (rcat [reOctet, Rx.lit '.']) 3, reOctet, Rx.wb]

/-- `RE_IPv6` (with `re.I`): `\b(?:[0-9a-f]{1,4}:){2,7}[0-9a-f]{1,4}\b`. -/
def reIPv6 : Rx :=
  rcat [Rx.wb, Rx.rep (rcat [Rx.rep cHex 1 (some 4), Rx.lit ':']) 2 (some 7),
    Rx.rep cHex 1 (some 4), Rx.wb]

/-- `RE_MAC` (with `re.I`): `\b(?:[0-9a-f]{2}[:-]){5}[0-9a-f]{2}\b`. -/
def reMAC : Rx :=
  rcat [Rx.wb,
    rexact (rcat [rexact cHex 2,
      Rx.cls false [CItem.single ':', CItem.single '-']]) 5,
    rexact cHex 2, Rx.wb]

/-- `RE_TS_ISO` (with `re.I`):
`\b\d{4}-\d{2}-\d{2}[T ]\d{2}:\d{2}:\d{2}(?:\.\d{1,9})?(?:Z|[+-]\d{2}:\d{2})?\b`. -/
def reTsIso : Rx :=
  rcat [Rx.wb, rexact cDigit 4, Rx.lit '-', rexact cDigit 2, Rx.lit '-',
    rexact cDigit 2, Rx.cls false [CItem.single 'T', CItem.single ' '],
    rexact cDigit 2, Rx.lit ':', rexact cDigit 2, Rx.lit ':', rexact cDigit 2,
    ropt (rcat [Rx.lit '.', Rx.rep cDigit 1 (some 9)]),
    ropt (ralts [Rx.lit 'Z',
      rcat [Rx.cls false [CItem.single '+', CItem.single '-'],
        rexact cDigit 2, Rx.lit ':', rexact cDigit 2]]),
    Rx.wb]

/-- `RE_TS_DATE`: `\b\d{4}/\d{2}/\d{2}\b`. -/
def reTsDate : Rx :=
  rcat [Rx.wb, rexact cDigit 4, Rx.lit '/', rexact cDigit 2, Rx.lit '/',
    rexact cDigit 2, Rx.wb]

/-- `RE_TS_TIME`: `\b\d{2}:\d{2}:\d{2}(?:\.\d+)?\b`. -/
def reTsTime : Rx :=
  rcat [Rx.wb, rexact cDigit 2, Rx.lit ':', rexact cDigit 2, Rx.lit ':',
    rexact cDigit 2, ropt (rcat [Rx.lit '.', rplus cDigit]), Rx.wb]

/-- `RE_URL` (with `re.I`): `\bhttps?://[^\s\"'<>]+`. -/
def reURL : Rx :=
  rcat [Rx.wb, rlit "http", ropt (Rx.lit 's'), rlit "://",
    rplus (Rx.cls true (wsItems ++
      [CItem.single '"', CItem.single apos, CItem.single '<', CItem.single '>']))]

/-- `RE_EMAIL` (with `re.I`): `\b[a-z0-9._%+-]+@[a-z0-9.-]+\.[a-z]{2,}\b`. -/
def reEmail : Rx :=
  rcat [Rx.wb,
    rplus (Rx.cls false [CItem.range 'a' 'z', CItem.range '0' '9',
      CItem.single '.', CItem.single '_', CItem.single '%', CItem.single '+',
      CItem.single '-']),
    Rx.lit '@',
    rplus (Rx.cls false [CItem.range 'a' 'z', CItem.range '0' '9',
      CItem.single '.', CItem.single '-']),
    Rx.lit '.', Rx.rep (Rx.cls false [CItem.range 'a' 'z']) 2 none, Rx.wb]

/-- `RE_ARN` (with `re.I`):
`\barn:aws[a-z-]*:[a-z0-9-]+:[a-z0-9-]*:\d{12}:[^\s\"']+\b`. -/
def reArn : Rx :=
  rcat [Rx.wb, rlit "arn:aws",
    rstar (Rx.cls false [CItem.range 'a' 'z', CItem.single '-']), Rx.lit ':',
    rplus (Rx.cls false [CItem.range 'a' 'z', CItem.range '0' '9',
      CItem.single '-']),
    Rx.lit ':',
    rstar (Rx.cls false [CItem.range 'a' 'z', CItem.range '0' '9',
      CItem.single '-']),
    Rx.lit ':', rexact cDigit 12, Rx.lit ':',
    rplus (Rx.cls true (wsItems ++ [CItem.single '"', CItem.single apos])),
    Rx.wb]

/-- Class `[a-zA-Z0-9_-]` of the JWT pattern. -/
def jwtItems : List CItem :=
  [CItem.range 'a' 'z', CItem.range 'A' 'Z', CItem.range '0' '9',
   CItem.single '_', CItem.single '-']

/-- `RE_JWT` (case sensitive):
`\beyJ[a-zA-Z0-9_-]{10,}\.[a-zA-Z0-9_-]{10,}\.[a-zA-Z0-9_-]{10,}\b`. -/
def reJwt : Rx :=
  rcat [Rx.wb, rlit "eyJ", Rx.rep (Rx.cls false jwtItems) 10 none, Rx.lit '.',
    Rx.rep (Rx.cls false jwtItems) 10 none, Rx.lit '.',
    Rx.rep (Rx.cls false jwtItems) 10 none, Rx.wb]

/-- `RE_B64`: `\b(?:[A-Za-z0-9+/]{20,}={0,2})\b`. -/
def reB64 : Rx :=
  rcat [Rx.wb,
    Rx.rep (Rx.cls false [CItem.range 'A' 'Z', CItem.range 'a' 'z',
      CItem.range '0' '9', CItem.single '+', CItem.single '/']) 20 none,
    Rx.rep (Rx.lit '=') 0 (some 2), Rx.wb]

/-- `RE_NUM`: `\b\d+\b`. -/
def reNum : Rx := rcat [Rx.wb, rplus cDigit, Rx.wb]

/-- One key alternative `p[_-]?id` of the key/value identifier pattern. -/
def kvKey (p : String) : Rx :=
  rcat [rlit p, ropt (Rx.cls false [CItem.single '_', CItem.single '-']),
    rlit "id"]

/-- `RE_KV_ID` (with `(?i)`): the key alternatives in source order, then
`\s*([=:])\s*([A-Za-z0-9._:/+=-]{6,})\b`, with capture groups for the key
and the separator. -/
def reKvId : Rx :=
  rcat [Rx.wb,
    Rx.grp 1 (ralts [kvKey "trace", kvKey "span", kvKey "request", kvKey "req",
      kvKey "correlation", kvKey "session", kvKey "event", kvKey "message",
      kvKey "msg", kvKey "job", kvKey "task", kvKey "txn", kvKey "transaction",
      kvKey "op", kvKey "operation", kvKey "run", rlit "uid", kvKey "user",
      kvKey "account", kvKey "customer", kvKey "tenant", kvKey "org"]),
    rstar (Rx.cls false wsItems),
    Rx.grp 2 (Rx.cls false [CItem.single '=', CItem.single ':']),
    rstar (Rx.cls false wsItems),
    Rx.grp 3 (Rx.rep (Rx.cls false [CItem.range 'A' 'Z', CItem.range 'a' 'z',
      CItem.range '0' '9', CItem.single '.', CItem.single '_', CItem.single ':',
      CItem.single '/', CItem.single '+', CItem.single '=', CItem.single '-'])
      6 none),
    Rx.wb]

/-- Class `[A-Za-z0-9_-]` of the long-token heuristic. -/
def tokItems : List CItem :=
  [CItem.range 'A' 'Z', CItem.range 'a' 'z', CItem.range '0' '9',
   CItem.single '_', CItem.single '-']

/-- `RE_LONG_ALNUM`:
`\b(?=[A-Za-z0-9_-]{12,}\b)(?=.*[A-Za-z])(?=.*\d)[A-Za-z0-9_-]+\b`. -/
def reLongAlnum : Rx :=
  rcat [Rx.wb,
    Rx.ahead (rcat [Rx.rep (Rx.cls false tokItems) 12 none, Rx.wb]),
    Rx.ahead (rcat [rstar Rx.dot,
      Rx.cls false [CItem.range 'A' 'Z', CItem.range 'a' 'z']]),
    Rx.ahead (rcat [rstar Rx.dot, cDigit]),
    rplus (Rx.cls false tokItems), Rx.wb]

/-- `RE_MIXED_TOKEN`: `\b[A-Za-z0-9]{18,}\b`. -/
def reMixedToken : Rx :=
  rcat [Rx.wb,
    Rx.rep (Rx.cls false [CItem.range 'A' 'Z', CItem.range 'a' 'z',
      CItem.range '0' '9']) 18 none,
    Rx.wb]

/-- Replacement function `_mask_kv`: keep the key and separator, mask the
value (`f"{key}{sep}<id>"`). -/
def maskKvRepl (caps : List (ℕ × List Char)) : List Char :=
  getCap caps 1 ++ getCap caps 2 ++ "<id>".toList

/-- The masking block of `LSHMinHashEmbedder._preprocess`: the eighteen
substitutions in exactly the source order. -/
def maskText (s : List Char) : List Char :=
  let s := rxSubC true reURL "<url>" s
  let s := rxSubC true reEmail "<url>" s
  let s := rxSubC true reArn "<url>" s
  let s := rxSubC false reJwt "<url>" s
  let s := rxSubC true reUUID "<id>" s
  let s := rxSubC false reIPv4 "<ip>" s
  let s := rxSubC true reIPv6 "<ip>" s
  let s := rxSubC true reMAC "<ip>" s
  let s := rxSubC true reTsIso "<ts>" s
  let s := rxSubC false reTsDate "<ts>" s
  let s := rxSubC false reTsTime "<ts>" s
  let s := rxSub true reKvId maskKvRepl s
  let s := rxSubC true reHexWord "<hex>" s
  let s := rxSubC true reHexLong "<hex>" s
  let s := rxSubC false reB64 "<hex>" s
  let s := rxSubC false reLongAlnum "<id>" s
  let s := rxSubC false reMixedToken "<id>" s
  rxSubC false reNum "<id>" s

/-- Embedding of `LSHMinHashEmbedder._preprocess`: optional lowercasing,
then (if enabled) the masking substitutions, then optional whitespace
collapsing and stripping — in exactly this order. -/
def preprocess (cfg : EmbCfg) (text : String) : List Char :=
  let s := text.toList
  let s := if cfg.lowercase then lowerStr s else s
  let s := if cfg.normalize_enabled then maskText s else s
  if cfg.collapse_whitespace then stripStr (collapseWs s) else s

/-- Embedding of `LSHMinHashEmbedder._shingle`: the set of `stable_u32`
hashes of all `shingle_size`-character windows of the text (represented as
a duplicate-free list; the only consumers are the order-independent
minhash fold and the set's size); empty when the text is shorter than the
window. -/
def shingle (n : ℕ) (s : List Char) : List ℕ :=
  if s.length < n then []
  else ((List.range (s.length - n + 1)).map
    (fun i => stable_u32 (String.mk ((s.drop i).take n)))).dedup

/-- One shingle's update of the running signature:
`sig[i] = min(sig[i], (a[i]*x + b[i]) % prime)` for every slot. -/
def minhashUpdate (numHashes : ℕ) (a b : List ℕ) (sig : List ℕ) (x : ℕ) :
    List ℕ :=
  (List.range numHashes).foldl (fun sig i =>
    let hx := ((a.getD i 0) * x + (b.getD i 0)) % lshPrime
    if hx < sig.getD i 0 then sig.set i hx else sig) sig

/-- Embedding of `LSHMinHashEmbedder._minhash_signature`: an empty shingle
set short-circuits to the all-sentinel vector; otherwise fold the updates
over the shingles (the result is order independent) and mask every slot to
32 bits.  The hash family is the one `__init__` derives from the seed. -/
def minhash_signature (cfg : EmbCfg) (sh : List ℕ) : List ℕ :=
  if sh.isEmpty then List.replicate cfg.num_hashes lshMaxHash
  else
    let ab := make_hash_params cfg.num_hashes cfg.seed
    let sig := sh.foldl (minhashUpdate cfg.num_hashes ab.1 ab.2)
      (List.replicate cfg.num_hashes lshMaxHash)
    sig.map (fun v => v &&& lshMaxHash)

/-- Embedding of `LSHMinHashEmbedder._signature_to_band_keys`:
`"lsh:{band}:{blake2b8 hex digest of the comma-joined chunk}"`. -/
def signature_to_band_keys (cfg : EmbCfg) (sig : List ℕ) : List String :=
  (List.range cfg.bands).map (fun b =>
    let chunk := (sig.drop (b * cfg.rows_per_band)).take cfg.rows_per_band
    let digest := bytesToHex (blake2b 8
      (utf8Bytes (String.intercalate "," (chunk.map toString))))
    "lsh:" ++ toString b ++ ":" ++ digest)

/-- Output of the embedder (`LSHEmbedding` dataclass). -/
structure LSHEmbedding where
  signature : List ℕ
  band_keys : List String
  shingle_count : ℕ

/-- Embedding of `LSHMinHashEmbedder.embed`: preprocess, short-circuit on
the `stop_short_lines` threshold, otherwise shingle and fingerprint. -/
def embed (cfg : EmbCfg) (text : String) : LSHEmbedding :=
  let norm := preprocess cfg text
  if cfg.stop_short_lines ≠ 0 ∧ (norm.length : Int) < cfg.stop_short_lines then
    let sig := List.replicate cfg.num_hashes lshMaxHash
    ⟨sig, signature_to_band_keys cfg sig, 0⟩
  else
    let sh := shingle cfg.shingle_size norm
    let sig := minhash_signature cfg sh
    ⟨sig, signature_to_band_keys cfg sig, sh.length⟩

mutual

/-- Python `repr` of a value (as used by `f"{insertable.metadata}"`), for
values whose strings contain no quotes or escapes — the case for the
metadata this pipeline handles. -/
def PyObj.pyRepr : PyObj → String
  | PyObj.noneV => "None"
  | PyObj.strV s => "\x27" ++ s ++ "\x27"
  | PyObj.intV n => toString n
  | PyObj.boolV b => if b then "True" else "False"
  | PyObj.listV xs => "[" ++ String.intercalate ", " (pyReprList xs) ++ "]"
  | PyObj.dictV es =>
      "\x7b" ++ String.intercalate ", " (pyReprEntries es) ++ "\x7d"

/-- Reprs of the elements of a Python list. -/
def pyReprList : List PyObj → List String
  | [] => []
  | x :: xs => PyObj.pyRepr x :: pyReprList xs

/-- `'key': repr(value)` fragments of a Python dict. -/
def pyReprEntries : List (String × PyObj) → List String
  | [] => []
  | e :: es => ("\x27" ++ e.1 ++ "\x27: " ++ PyObj.pyRepr e.2) :: pyReprEntries es

end

/-- Python `str()` of a value: identity on strings, `repr` otherwise. -/
def pyStr (v : PyObj) : String :=
  match v with
  | PyObj.strV s => s
  | v => v.pyRepr

/-- A point returned by the vector-search engine (id, similarity score,
payload). -/
structure QPoint where
  id : String
  score : ℚ
  payload : List (String × PyObj)

/-- One response of a batched nearest-neighbor query. -/
structure QueryResponse where
  points : List QPoint

/-- A log entry as handed to `insert_logs`: text, metadata dict, and the
timestamp the pipeline annotates. -/
structure LogEntry where
  text : String
  metadata : List (String × PyObj)
  insert_timestamp : Option String

/-- Arguments of one `insert_into_lookup_db` call. -/
structure LookupRecord where
  log_id : String
  closest_log_id : String
  similarity : ℚ
  timestamp : PyObj
  location : PyObj

/-- The Python exceptions the embedded pipeline code can raise. -/
inductive PyError where
  | attributeError : PyError
  | indexError : PyError

/-- Embedding of `VectorStore._hash`: MD5 hex digest of
`f"{insertable.text}-{insertable.metadata}"`. -/
def insertable_hash (text : String) (metadata : List (String × PyObj)) :
    String :=
  hash_text_to_string (text ++ "-" ++ (PyObj.dictV metadata).pyRepr)

/-- The entry mutation performed at the top of the `insert_logs` loop:
`entry['insert_timestamp'] = get_time()` and
`entry['metadata']['sim_sync'] = False` (`now` stands for `get_time()`). -/
def annotateEntry (now : String) (e : LogEntry) : LogEntry :=
  { e with insert_timestamp := some now,
           metadata := dictSet e.metadata "sim_sync" (PyObj.boolV false) }

/-- `entry.get('metadata', {}).get(k, '')`. -/
def metaGetDefault (e : LogEntry) (k : String) : PyObj :=
  match dictGet e.metadata k with
  | some v => v
  | none => PyObj.strV ""

/-- Body of the `insert_logs` loop for one `(entry, result)` pair: the
entry is annotated and hashed first; a `None` result raises
`AttributeError` at `result.points`; otherwise the top match's score is
compared against the threshold.  Returns the mutated entry, the
`LookupRecord` written, and the entry queued for vector insertion (if
any). -/
def process_entry (threshold : ℚ) (now : String) (e : LogEntry)
    (result : Option QueryResponse) :
    Except PyError (LogEntry × LookupRecord × Option LogEntry) :=
  let e' := annotateEntry now e
  let hashval := insertable_hash e'.text e'.metadata
  match result with
  | none => Except.error PyError.attributeError
  | some r =>
    match r.points with
    | top :: _ =>
      if threshold ≤ top.score then
        Except.ok (e', ⟨hashval, top.id, top.score,
          metaGetDefault e' "timestamp", metaGetDefault e' "pod_name"⟩, none)
      else
        Except.ok (e', ⟨hashval, hashval, 1,
          metaGetDefault e' "timestamp", metaGetDefault e' "pod_name"⟩, some e')
    | [] =>
      Except.ok (e', ⟨hashval, hashval, 1,
        metaGetDefault e' "timestamp", metaGetDefault e' "pod_name"⟩, some e')

/-- The `insert_logs` loop over the zipped entries and results: collects
(in order) the mutated entries, the lookup-store writes, and the queue of
entries for the deferred vector insertion. -/
def process_entries (threshold : ℚ) (now : String) :
    List (LogEntry × Option QueryResponse) →
    Except PyError (List LogEntry × List LookupRecord × List LogEntry)
  | [] => Except.ok ([], [], [])
  | (e, res) :: rest => do
    let (e', rcd, q) ← process_entry threshold now e res
    let (es, recs, queue) ← process_entries threshold now rest
    Except.ok (e' :: es, rcd :: recs,
      match q with | some x => x :: queue | none => queue)

/-- An externally visible store operation of the pipeline, in order. -/
inductive StoreEvent where
  | lookupInsert (r : LookupRecord) : StoreEvent
  | vectorInserts (entries : List LogEntry) : StoreEvent

/-- Embedding of `LogIngestionHtbridHandler.insert_logs`.  The batched
search result is an input (it comes from the external engine): `none`
models `search_batch` returning `None`.  A `None`-or-empty result list is
replaced by `[None]*len(log_entries)` exactly as in the source; the final
vector-store insertion happens once, after the loop, and only if the
queue is nonempty. -/
def insert_logs (threshold : ℚ) (now : String) (log_entries : List LogEntry)
    (search_results : Option (List QueryResponse)) :
    Except PyError (List LogEntry × List StoreEvent) :=
  let results : List (Option QueryResponse) :=
    match search_results with
    | none => List.replicate log_entries.length none
    | some rs =>
        if rs.length = 0 then List.replicate log_entries.length none
        else rs.map some
  do
    let (es, recs, queue) ← process_entries threshold now (log_entries.zip results)
    Except.ok (es, recs.map StoreEvent.lookupInsert ++
      (if queue.isEmpty then [] else [StoreEvent.vectorInserts queue]))

/-- A point returned by the vector-store scroll. -/
structure ScrollPoint where
  id : String
  payload : List (String × PyObj)

/-- The edge-collection loop of `sync_similarty`: for each zipped
`(point, result)`, a nonempty result has `result.points[1]` taken as the
neighbor — `IndexError` when only one point came back — and an edge
`(point.id, str(top_point.id), top_point.score)` is appended; empty
results are skipped. -/
def sync_edges : List (ScrollPoint × QueryResponse) →
    Except PyError (List (String × String × ℚ))
  | [] => Except.ok []
  | (pt, r) :: rest =>
    match r.points with
    | [] => sync_edges rest
    | [_] => Except.error PyError.indexError
    | _ :: second :: _ => do
        let es ← sync_edges rest
        Except.ok ((pt.id, second.id, second.score) :: es)

/-- Embedding of `LogIngestionHtbridHandler.sync_similarty` from the
scrolled points and their top-2 query results onward (the scroll and the
batched query are inputs from the external engine). -/
def sync_similarty (unsync_points : List ScrollPoint)
    (search_results : List QueryResponse) :
    Except PyError (List (String × String × ℚ)) :=
  sync_edges (unsync_points.zip search_results)

mutual

/-- A filter spec (`Dict[str, Any]`) as the adapter reads it: the `key`,
`dtype`, `op` and `logic` fields as `spec.get` returns them (absent =
`none`), the `value` field (absent is the same as `None`, matching
`spec.get("value", None)`), and the `clauses` field. -/
inductive FSpec where
  | mk (key : Option String) (dtype : Option String) (op : Option String)
      (value : PyObj) (logic : Option String) (clauses : ClVal) : FSpec

/-- The `clauses` entry of a spec: a list of sub-specs, or a value that is
not a list (`expr.get("clauses", [])` makes an absent entry the empty
list). -/
inductive ClVal where
  | lst (xs : List FSpec) : ClVal
  | nonList : ClVal

end

/-- Field accessor for `spec.get("key")`. -/
def FSpec.key : FSpec → Option String
  | FSpec.mk k _ _ _ _ _ => k

/-- Field accessor for `spec.get("dtype")`. -/
def FSpec.dtype : FSpec → Option String
  | FSpec.mk _ d _ _ _ _ => d

/-- Field accessor for `spec.get("op")`. -/
def FSpec.op : FSpec → Option String
  | FSpec.mk _ _ o _ _ _ => o

/-- Field accessor for `spec.get("value", None)`. -/
def FSpec.value : FSpec → PyObj
  | FSpec.mk _ _ _ v _ _ => v

/-- Field accessor for `expr.get("logic")`. -/
def FSpec.logic : FSpec → Option String
  | FSpec.mk _ _ _ _ l _ => l

/-- Field accessor for `expr.get("clauses", [])`. -/
def FSpec.clauses : FSpec → ClVal
  | FSpec.mk _ _ _ _ _ c => c

/-- A single Qdrant condition as built by
`_field_condition_from_atomic` (`models.FieldCondition` /
`models.HasIdCondition` with the argument the source passes). -/
inductive QCondition where
  | hasId (ids : List PyObj) : QCondition
  | matchValue (key : String) (v : PyObj) : QCondition
  | matchAny (key : String) (vs : List PyObj) : QCondition
  | matchExcept (key : String) (vs : List PyObj) : QCondition
  | matchText (key : String) (s : String) : QCondition
  | matchPhrase (key : String) (s : String) : QCondition
  | isNull (key : String) (b : Bool) : QCondition
  | isEmptyCond (key : String) : QCondition
  | dtRange (key : String) (gt gte lt lte : Option PyObj) : QCondition
  | numRange (key : String) (gt gte lt lte : Option PyObj) : QCondition

mutual

/-- A compiled `models.Filter`: a `must` conjunction, a `should`
disjunction with its `min_should` count, or a `must_not` negation. -/
inductive QFilter where
  | mustF (cs : List QFCond) : QFilter
  | shouldF (cs : List QFCond) (minCount : ℕ) : QFilter
  | mustNotF (cs : List QFCond) : QFilter

/-- A member of a filter clause list: a field condition or a nested
filter (`models.FilterCondition`). -/
inductive QFCond where
  | field (c : QCondition) : QFCond
  | nested (f : QFilter) : QFCond

end

/-- The `ValueError`s of `filter_adapter`, each carrying the offending
spec (or value) its message names. -/
inductive AdapterError where
  | missingKey (spec : FSpec) : AdapterError
  | unsupportedOp (op : String) (spec : FSpec) : AdapterError
  | badRange (value : PyObj) : AdapterError
  | badClauses (expr : FSpec) : AdapterError
  | unsupportedLogic (logic : String) (expr : FSpec) : AdapterError
  | orNotImplemented : AdapterError
  | unsupportedMode (mode : String) : AdapterError

/-- ASCII `str.lower` on a `String`. -/
def strLower (s : String) : String := String.mk (lowerStr s.toList)

/-- `(spec.get("dtype") or "string").lower()`. -/
def spec_dtype (s : FSpec) : String :=
  match s.dtype with
  | some d => if d = "" then "string" else strLower d
  | none => "string"

/-- `(spec.get("op") or "equals").lower()`. -/
def spec_op (s : FSpec) : String :=
  match s.op with
  | some o => if o = "" then "equals" else strLower o
  | none => "equals"

/-- Python truthiness of the `key` field: `not key` holds for an absent
key and for the empty string. -/
def key_falsy (s : FSpec) : Bool := s.key = none || s.key = some ""

/-- Embedding of `_as_list`: `None` becomes `[]`, a list is kept, any
other value is wrapped in a singleton. -/
def as_list (x : PyObj) : List PyObj :=
  match x with
  | PyObj.noneV => []
  | PyObj.listV xs => xs
  | v => [v]

/-- Split a string at the first comma (`value.split(",", 1)`), both parts
stripped. -/
def splitOnceComma (s : List Char) : List Char × List Char :=
  (stripStr (s.takeWhile (fun c => c ≠ ',')),
   stripStr ((s.dropWhile (fun c => c ≠ ',')).tail))

/-- Embedding of `_parse_range_value`: accepts a dict, a 2-element
sequence (list or tuple, both modelled by `listV`), or a string containing
a comma; anything else raises `ValueError`. -/
def parse_range_value (value : PyObj) :
    Except AdapterError (List (String × PyObj)) :=
  match value with
  | PyObj.dictV es => Except.ok es
  | PyObj.listV [a, b] => Except.ok [("gte", a), ("lte", b)]
  | PyObj.strV s =>
      if s.toList.contains ',' then
        let p := splitOnceComma s.toList
        Except.ok [("gte", PyObj.strV (String.mk p.1)),
                   ("lte", PyObj.strV (String.mk p.2))]
      else Except.error (AdapterError.badRange value)
  | v => Except.error (AdapterError.badRange v)

/-- Embedding of `_field_condition_from_atomic`, with the branches in
source order: the missing-`key` guard (skipped for `has_id`), the
supported operator table, and the range construction choosing a datetime
or numeric range by declared `dtype`; an unsupported `op` raises
`ValueError` naming the spec. -/
def field_condition_from_atomic (spec : FSpec) :
    Except AdapterError QCondition :=
  let key := spec.key.getD ""
  let dtype := spec_dtype spec
  let op := spec_op spec
  let value := spec.value
  if key_falsy spec ∧ op ≠ "has_id" then
    Except.error (AdapterError.missingKey spec)
  else if op = "has_id" then Except.ok (QCondition.hasId (as_list value))
  else if op = "equals" ∨ op = "eq" then
    Except.ok (QCondition.matchValue key value)
  else if op = "in" then Except.ok (QCondition.matchAny key (as_list value))
  else if op = "not_in" then
    Except.ok (QCondition.matchExcept key (as_list value))
  else if op = "contains" ∨ op = "text" then
    Except.ok (QCondition.matchText key (pyStr value))
  else if op = "phrase" then Except.ok (QCondition.matchPhrase key (pyStr value))
  else if op = "prefix" then Except.ok (QCondition.matchText key (pyStr value))
  else if op = "exists" ∨ op = "has_field" then
    Except.ok (QCondition.isNull key false)
  else if op = "is_null" then Except.ok (QCondition.isNull key true)
  else if op = "is_empty" then Except.ok (QCondition.isEmptyCond key)
  else if op = "gt" ∨ op = "gte" ∨ op = "lt" ∨ op = "lte" ∨ op = "between" ∨
      op = "range" then do
    let r ← if op = "between" ∨ op = "range" then parse_range_value value
      else Except.ok [(op, value)]
    if dtype = "datetime" ∨ dtype = "date" ∨ dtype = "timestamp" then
      Except.ok (QCondition.dtRange key (dictGet r "gt") (dictGet r "gte")
        (dictGet r "lt") (dictGet r "lte"))
    else
      Except.ok (QCondition.numRange key (dictGet r "gt") (dictGet r "gte")
        (dictGet r "lt") (dictGet r "lte"))
  else Except.error (AdapterError.unsupportedOp op spec)

/-- Python truthiness of `c.get("logic")`: present and nonempty. -/
def spec_logic_truthy (s : FSpec) : Bool :=
  match s.logic with
  | some l => l ≠ ""
  | none => false

mutual

/-- Embedding of `_build_filter_from_expr`: a spec with falsy `logic`
compiles atomically into a single-`must` filter; otherwise `clauses` must
be a nonempty list (else `ValueError`), and `and` / `or` / `not` compile
the clause list into `must` / `should` + `min_should 1` / `must_not`,
nested logical clauses becoming embedded sub-filters. -/
def build_filter_from_expr : FSpec → Except AdapterError QFilter
  | FSpec.mk k d o v l c =>
    let expr := FSpec.mk k d o v l c
    if spec_logic_truthy expr = false then do
      let cond ← field_condition_from_atomic expr
      Except.ok (QFilter.mustF [QFCond.field cond])
    else
      let logic := strLower (l.getD "")
      match c with
      | ClVal.nonList => Except.error (AdapterError.badClauses expr)
      | ClVal.lst cs =>
        if cs.isEmpty then Except.error (AdapterError.badClauses expr)
        else if logic = "and" then do
          let conds ← build_cond_list cs
          Except.ok (QFilter.mustF conds)
        else if logic = "or" then do
          let conds ← build_cond_list cs
          Except.ok (QFilter.shouldF conds 1)
        else if logic = "not" then do
          let conds ← build_cond_list cs
          Except.ok (QFilter.mustNotF conds)
        else Except.error (AdapterError.unsupportedLogic logic expr)
termination_by expr => sizeOf expr
decreasing_by all_goals (simp_wf; try omega)

/-- The clause loop shared by the three logical branches: each clause with
truthy `logic` becomes a nested filter, the rest become atomic field
conditions. -/
def build_cond_list : List FSpec → Except AdapterError (List QFCond)
  | [] => Except.ok []
  | c :: rest => do
    let head ← if spec_logic_truthy c then do
        let f ← build_filter_from_expr c
        Except.ok (QFCond.nested f)
      else do
        let cond ← field_condition_from_atomic c
        Except.ok (QFCond.field cond)
    let tail ← build_cond_list rest
    Except.ok (head :: tail)
termination_by l => sizeOf l
decreasing_by all_goals (simp_wf; try omega)

end

/-- Result of `adapter_specs_to_filters`: a list of filters (one per
logical expression) or a single wrapped filter. -/
inductive AdapterResult where
  | filters (fs : List QFilter) : AdapterResult
  | single (f : QFilter) : AdapterResult

/-- Embedding of `adapter_specs_to_filters`: if any spec has a `logic`
key, each compiles to its own filter; otherwise the atomic list is
wrapped according to `mode` (`and` supported, `or` raises
`NotImplementedError`, anything else `ValueError`). -/
def adapter_specs_to_filters (specs : List FSpec) (mode : String) :
    Except AdapterError AdapterResult :=
  let mode := strLower mode
  if specs.any (fun s => s.logic ≠ none) then do
    let fs ← specs.mapM build_filter_from_expr
    Except.ok (AdapterResult.filters fs)
  else do
    let conds ← specs.mapM field_condition_from_atomic
    if mode = "and" then
      Except.ok (AdapterResult.single (QFilter.mustF (conds.map QFCond.field)))
    else if mode = "or" then Except.error AdapterError.orNotImplemented
    else Except.error (AdapterError.unsupportedMode mode)

/-- C6: constructing the fingerprinter fails fast (with the
`ConfigurationError` of the spec, a `ValueError` in the source) if and
only if the parameters are invalid — `shingle_size ≤ 0`, `num_hashes ≤ 0`,
`bands ≤ 0`, or `bands` not dividing `num_hashes` exactly; in particular
`num_hashes = 100` with `bands = 7` fails, and valid parameters always
construct successfully. -/
theorem mkEmbedder_error_iff_invalid :
    (∀ (ss nh b seed : Int) (nrm lc cw : Bool) (ssl : Int),
      ((∃ e, mkEmbedder ss nh b seed nrm lc cw ssl = Except.error e) ↔
        (ss ≤ 0 ∨ nh ≤ 0 ∨ b ≤ 0 ∨ nh % b ≠ 0)) ∧
      (¬ (ss ≤ 0 ∨ nh ≤ 0 ∨ b ≤ 0 ∨ nh % b ≠ 0) →
        ∃ cfg, mkEmbedder ss nh b seed nrm lc cw ssl = Except.ok cfg)) ∧
    (∃ e, mkEmbedder 5 100 7 42 true true true 0 = Except.error e) := by
  refine ⟨fun ss nh b seed nrm lc cw ssl => ⟨?_, ?_⟩, ?_⟩
  · unfold mkEmbedder
    split_ifs with h1 h2 h3
    · exact iff_of_true ⟨_, rfl⟩ (Or.inl h1)
    · exact iff_of_true ⟨_, rfl⟩ (Or.inr (Or.inl h2))
    · exact iff_of_true ⟨_, rfl⟩ (by tauto)
    · refine iff_of_false ?_ (by tauto)
      rintro ⟨e, he⟩
      exact absurd he (by simp)
  · intro h
    unfold mkEmbedder
    split_ifs with h1 h2 h3
    · exact absurd (Or.inl h1) h
    · exact absurd (Or.inr (Or.inl h2)) h
    · exact absurd (by tauto) h
    · exact ⟨_, rfl⟩
  · exact ⟨"bands must be > 0 and must divide num_hashes exactly", by rfl⟩

/-- Witness for C6: the implication part applied at valid parameters
`shingle_size = 5`, `num_hashes = 100`, `bands = 50`. -/
theorem mkEmbedder_error_iff_invalid_witness :
    ¬ ((5 : Int) ≤ 0 ∨ (100 : Int) ≤ 0 ∨ (50 : Int) ≤ 0 ∨
        (100 : Int) % 50 ≠ 0) ∧
    (∃ cfg, mkEmbedder 5 100 50 42 true true true 0 = Except.ok cfg) :=
  ⟨by decide,
   (mkEmbedder_error_iff_invalid.1 5 100 50 42 true true true 0).2 (by decide)⟩

/-- C7: exact Jaccard returns `1` when both shingle sets are empty, `0`
when exactly one is empty, and `|A ∩ B| / |A ∪ B|` otherwise; the result
always lies in `[0, 1]` and `jaccard A A = 1` for every `A`. -/
theorem jaccard_cases_bounds_self :
    (∀ a b : Finset ℕ,
      (a = ∅ ∧ b = ∅ → jaccard a b = 1) ∧
      ((a = ∅ ↔ ¬ b = ∅) → jaccard a b = 0) ∧
      (a ≠ ∅ → b ≠ ∅ →
        jaccard a b = ((a ∩ b).card : ℚ) / ((a ∪ b).card : ℚ)) ∧
      0 ≤ jaccard a b ∧ jaccard a b ≤ 1) ∧
    (∀ a : Finset ℕ, jaccard a a = 1) := by
  have hcases : ∀ a b : Finset ℕ,
      (a = ∅ ∧ b = ∅ → jaccard a b = 1) ∧
      ((a = ∅ ↔ ¬ b = ∅) → jaccard a b = 0) ∧
      (a ≠ ∅ → b ≠ ∅ →
        jaccard a b = ((a ∩ b).card : ℚ) / ((a ∪ b).card : ℚ)) := by
    intro a b
    refine ⟨fun h => ?_, fun h => ?_, fun ha hb => ?_⟩
    · simp [jaccard, h.1, h.2]
    · rcases Classical.em (a = ∅) with ha | ha
      · simp [jaccard, ha, h.mp ha]
      · have hb : b = ∅ := not_not.mp (fun hb => ha (h.mpr hb))
        simp [jaccard, ha, hb]
    · simp [jaccard, ha, hb]
  constructor
  · intro a b
    refine ⟨(hcases a b).1, (hcases a b).2.1, (hcases a b).2.2, ?_, ?_⟩
    · unfold jaccard
      split_ifs with h1 h2
      · norm_num
      · norm_num
      · positivity
    · unfold jaccard
      split_ifs with h1 h2
      · norm_num
      · norm_num
      · push_neg at h1 h2
        have hub : 0 < ((a ∪ b).card : ℚ) := by
          have : (a ∪ b).Nonempty := by
            rcases Finset.nonempty_iff_ne_empty.mpr h2.1 with ⟨x, hx⟩
            exact ⟨x, Finset.mem_union_left _ hx⟩
          exact_mod_cast Finset.card_pos.mpr this
        refine div_le_one_of_le₀ ?_ (le_of_lt hub)
        exact_mod_cast Finset.card_le_card
          (Finset.Subset.trans Finset.inter_subset_left Finset.subset_union_left)
  · intro a
    rcases Classical.em (a = ∅) with ha | ha
    · simp [jaccard, ha]
    · have hcard : 0 < (a.card : ℚ) := by
        exact_mod_cast Finset.card_pos.mpr (Finset.nonempty_iff_ne_empty.mpr ha)
      simp [jaccard, ha, Finset.inter_self, Finset.union_self,
        div_self (ne_of_gt hcard)]

/-- Witness for C7: the exactly-one-empty implication applied at
`A = ∅`, `B = {1}`, and the nonempty-case formula at `A = B = {1}`. -/
theorem jaccard_cases_bounds_self_witness :
    ((∅ : Finset ℕ) = ∅ ↔ ¬ ({1} : Finset ℕ) = ∅) ∧ jaccard ∅ {1} = 0 ∧
    ({1} : Finset ℕ) ≠ ∅ ∧
    jaccard {1} {1} = ((({1} : Finset ℕ) ∩ {1}).card : ℚ) /
      ((({1} : Finset ℕ) ∪ {1}).card : ℚ) :=
  ⟨by simp, (jaccard_cases_bounds_self.1 ∅ {1}).2.1 (by simp), by simp,
   (jaccard_cases_bounds_self.1 {1} {1}).2.2.1 (by simp) (by simp)⟩

/-- The operator names `_field_condition_from_atomic` accepts. -/
def supported_op (o : String) : Bool :=
  o = "has_id" || o = "equals" || o = "eq" || o = "in" || o = "not_in" ||
  o = "contains" || o = "text" || o = "phrase" || o = "prefix" ||
  o = "exists" || o = "has_field" || o = "is_null" || o = "is_empty" ||
  o = "gt" || o = "gte" || o = "lt" || o = "lte" || o = "between" ||
  o = "range"

/-- C8 counterexample: the claim says every atomic spec missing `key`
fails, but a key-less spec with `op = "has_id"` compiles successfully
(the source skips the key check for that operator). -/
theorem adapter_missing_key_counterexample :
    adapter_specs_to_filters
      [FSpec.mk none none (some "has_id") PyObj.noneV none (ClVal.lst [])]
      "and" =
    Except.ok (AdapterResult.single
      (QFilter.mustF [QFCond.field (QCondition.hasId [])])) := by rfl

/-- C8 (amended): compilation fails with a `ValueError` carrying the
offending spec whenever a spec is malformed — an atomic spec missing
`key` (unless its `op` is `has_id`), an atomic spec with an unsupported
`op`, a `between`/`range` value that is not a dict, a 2-element sequence
or a comma-separated string (the error carries that value), or a logical
spec whose `clauses` is missing, not a list, or empty; no malformed spec
is silently skipped. -/
theorem adapter_malformed_spec_errors :
    (∀ spec : FSpec, key_falsy spec = true → spec_op spec ≠ "has_id" →
      field_condition_from_atomic spec =
        Except.error (AdapterError.missingKey spec)) ∧
    (∀ spec : FSpec, supported_op (spec_op spec) = false →
      field_condition_from_atomic spec =
        Except.error (AdapterError.missingKey spec) ∨
      field_condition_from_atomic spec =
        Except.error (AdapterError.unsupportedOp (spec_op spec) spec)) ∧
    (∀ v : PyObj, (∀ es, v ≠ PyObj.dictV es) →
      (∀ a b, v ≠ PyObj.listV [a, b]) →
      (∀ s, v = PyObj.strV s → s.toList.contains ',' = false) →
      parse_range_value v = Except.error (AdapterError.badRange v)) ∧
    (∀ spec : FSpec, key_falsy spec = false →
      (spec_op spec = "between" ∨ spec_op spec = "range") →
      parse_range_value spec.value =
        Except.error (AdapterError.badRange spec.value) →
      field_condition_from_atomic spec =
        Except.error (AdapterError.badRange spec.value)) ∧
    (∀ expr : FSpec, spec_logic_truthy expr = true →
      (expr.clauses = ClVal.nonList ∨ expr.clauses = ClVal.lst []) →
      build_filter_from_expr expr =
        Except.error (AdapterError.badClauses expr)) := by
  refine ⟨?_, ?_, ?_, ?_, ?_⟩
  · intro spec hk hop
    simp [field_condition_from_atomic, hk, hop]
  · intro spec hsupp
    by_cases hk : key_falsy spec = true ∧ spec_op spec ≠ "has_id"
    · left
      simp [field_condition_from_atomic, hk.1, hk.2]
    · right
      simp only [supported_op, Bool.or_eq_false_iff, decide_eq_false_iff_not]
        at hsupp
      obtain ⟨⟨⟨⟨⟨⟨⟨⟨⟨⟨⟨⟨⟨⟨⟨⟨⟨⟨h1, h2⟩, h3⟩, h4⟩, h5⟩, h6⟩, h7⟩, h8⟩, h9⟩,
        h10⟩, h11⟩, h12⟩, h13⟩, h14⟩, h15⟩, h16⟩, h17⟩, h18⟩, h19⟩ := hsupp
      have hkey : key_falsy spec = false := by
        cases hkf : key_falsy spec with
        | false => rfl
        | true => exact absurd ⟨hkf, h1⟩ hk
      simp [field_condition_from_atomic, h1, h2, h3, h4, h5, h6, h7, h8, h9,
        h10, h11, h12, h13, h14, h15, h16, h17, h18, h19, hkey]
  · intro v h1 h2 h3
    match v with
    | PyObj.noneV => rfl
    | PyObj.strV s =>
      simp only [parse_range_value]
      rw [h3 s rfl]
      simp
    | PyObj.intV n => rfl
    | PyObj.boolV b => rfl
    | PyObj.listV xs =>
      match xs with
      | [] => rfl
      | [a] => rfl
      | [a, b] => exact absurd rfl (h2 a b)
      | a :: b :: c :: rest => rfl
    | PyObj.dictV es => exact absurd rfl (h1 es)
  · intro spec hk hop hparse
    have hkf : ¬ (key_falsy spec = true ∧ spec_op spec ≠ "has_id") := by
      simp [hk]
    rcases hop with hop | hop <;>
      simp [field_condition_from_atomic, hk, hkf, hop, hparse, Except.bind] <;>
      rfl
  · intro expr hlog hc
    match expr with
    | FSpec.mk k d o v l c =>
      rcases hc with hc | hc <;>
        simp_all [build_filter_from_expr, FSpec.clauses, List.isEmpty]

/-- Witness for C8: the amended-claim implications applied at concrete
malformed specs — a key-less `equals` spec, an unknown operator, a
numeric `between` value, the propagation of the range error, and an
`and` expression with `clauses` not a list. -/
theorem adapter_malformed_spec_errors_witness :
    (key_falsy (FSpec.mk none none none PyObj.noneV none (ClVal.lst [])) =
        true ∧
      field_condition_from_atomic
        (FSpec.mk none none none PyObj.noneV none (ClVal.lst [])) =
      Except.error (AdapterError.missingKey
        (FSpec.mk none none none PyObj.noneV none (ClVal.lst [])))) ∧
    (supported_op (spec_op (FSpec.mk (some "f") none (some "matches")
        PyObj.noneV none (ClVal.lst []))) = false ∧
      (field_condition_from_atomic (FSpec.mk (some "f") none (some "matches")
          PyObj.noneV none (ClVal.lst [])) =
        Except.error (AdapterError.missingKey (FSpec.mk (some "f") none
          (some "matches") PyObj.noneV none (ClVal.lst []))) ∨
       field_condition_from_atomic (FSpec.mk (some "f") none (some "matches")
          PyObj.noneV none (ClVal.lst [])) =
        Except.error (AdapterError.unsupportedOp "matches"
          (FSpec.mk (some "f") none (some "matches") PyObj.noneV none
            (ClVal.lst []))))) ∧
    parse_range_value (PyObj.intV 3) =
      Except.error (AdapterError.badRange (PyObj.intV 3)) ∧
    field_condition_from_atomic (FSpec.mk (some "f") none (some "between")
        (PyObj.intV 3) none (ClVal.lst [])) =
      Except.error (AdapterError.badRange (PyObj.intV 3)) ∧
    build_filter_from_expr
        (FSpec.mk none none none PyObj.noneV (some "and") ClVal.nonList) =
      Except.error (AdapterError.badClauses
        (FSpec.mk none none none PyObj.noneV (some "and") ClVal.nonList)) :=
  ⟨⟨rfl, adapter_malformed_spec_errors.1 _ rfl (by decide)⟩,
   ⟨by decide, adapter_malformed_spec_errors.2.1 _ (by decide)⟩,
   adapter_malformed_spec_errors.2.2.1 (PyObj.intV 3)
     (fun es h => absurd h (by simp)) (fun a b h => absurd h (by simp))
     (fun s h => absurd h (by simp)),
   adapter_malformed_spec_errors.2.2.2.1 _ rfl (Or.inl rfl) rfl,
   adapter_malformed_spec_errors.2.2.2.2 _ rfl (Or.inl rfl)⟩

/-- The `LookupRecord` the spec predicts for one `(entry, response)` pair:
a top match scoring at least the threshold yields a record pointing at the
matched id with that score; a lower score or no match yields a
self-referencing record with similarity `1`. -/
def decision_record (threshold : ℚ) (now : String) (e : LogEntry)
    (r : QueryResponse) : LookupRecord :=
  let e' := annotateEntry now e
  let h := insertable_hash e'.text e'.metadata
  match r.points with
  | top :: _ =>
      if threshold ≤ top.score then
        ⟨h, top.id, top.score, metaGetDefault e' "timestamp",
          metaGetDefault e' "pod_name"⟩
      else
        ⟨h, h, 1, metaGetDefault e' "timestamp", metaGetDefault e' "pod_name"⟩
  | [] => ⟨h, h, 1, metaGetDefault e' "timestamp", metaGetDefault e' "pod_name"⟩

/-- The queueing decision the spec predicts for one pair: entries whose top
match reaches the threshold are not queued for vector insertion, all
others are queued (in their annotated form). -/
def decision_queued (threshold : ℚ) (now : String) (e : LogEntry)
    (r : QueryResponse) : Option LogEntry :=
  match r.points with
  | top :: _ =>
      if threshold ≤ top.score then none else some (annotateEntry now e)
  | [] => some (annotateEntry now e)

/-- The loop body on a non-`None` result never raises and computes exactly
the decision record and queueing decision. -/
theorem process_entry_some (threshold : ℚ) (now : String) (e : LogEntry)
    (r : QueryResponse) :
    process_entry threshold now e (some r) =
      Except.ok (annotateEntry now e, decision_record threshold now e r,
        decision_queued threshold now e r) := by
  unfold process_entry decision_record decision_queued
  cases hp : r.points with
  | nil => simp [hp]
  | cons top rest => by_cases h : threshold ≤ top.score <;> simp [hp, h]

/-- The loop over all-present results collects the annotated entries, the
decision records in order, and the queued entries in order. -/
theorem process_entries_eq (threshold : ℚ) (now : String)
    (pairs : List (LogEntry × QueryResponse)) :
    process_entries threshold now (pairs.map (fun p => (p.1, some p.2))) =
      Except.ok (pairs.map (fun p => annotateEntry now p.1),
        pairs.map (fun p => decision_record threshold now p.1 p.2),
        pairs.filterMap (fun p => decision_queued threshold now p.1 p.2)) := by
  induction pairs with
  | nil => rfl
  | cons p rest ih =>
    simp only [List.map_cons, process_entries, process_entry_some, ih,
      List.filterMap_cons]
    cases hq : decision_queued threshold now p.1 p.2 <;> rfl

/-- Lookup after a dict assignment finds the assigned value. -/
theorem dictGet_dictSet (d : List (String × PyObj)) (k : String) (v : PyObj) :
    dictGet (dictSet d k v) k = some v := by
  induction d with
  | nil => simp [dictSet, dictGet]
  | cons e rest ih =>
    by_cases h : e.1 = k <;> simp [dictSet, dictGet, h, ih]

/-- Shared helper: for a batch whose search returned one response per
entry, `insert_logs` succeeds and its outputs are the annotated entries,
the per-pair lookup writes in order, and the single deferred vector
insertion of the queued entries (only when the queue is nonempty). -/
theorem insert_logs_events_eq (threshold : ℚ) (now : String)
    (entries : List LogEntry) (rs : List QueryResponse)
    (hlen : rs.length = entries.length) :
    insert_logs threshold now entries (some rs) =
      Except.ok (entries.map (annotateEntry now),
        (entries.zip rs).map
          (fun p => StoreEvent.lookupInsert (decision_record threshold now p.1 p.2)) ++
        (if ((entries.zip rs).filterMap
              (fun p => decision_queued threshold now p.1 p.2)).isEmpty then []
         else [StoreEvent.vectorInserts ((entries.zip rs).filterMap
              (fun p => decision_queued threshold now p.1 p.2))])) := by
  by_cases hrs : rs.length = 0
  · have hrsnil : rs = [] := List.eq_nil_of_length_eq_zero hrs
    subst hrsnil
    have hent : entries = [] := List.eq_nil_of_length_eq_zero hlen.symm
    subst hent
    rfl
  · have hfst : (entries.zip rs).map (fun p => annotateEntry now p.1)
        = entries.map (annotateEntry now) := by
      have h1 : (entries.zip rs).map Prod.fst = entries :=
        List.map_fst_zip entries rs (by omega)
      calc (entries.zip rs).map (fun p => annotateEntry now p.1)
          = ((entries.zip rs).map Prod.fst).map (annotateEntry now) := by
            rw [List.map_map]; rfl
        _ = entries.map (annotateEntry now) := by rw [h1]
    unfold insert_logs
    simp only [if_neg hrs]
    have hz : entries.zip (rs.map some) =
        (entries.zip rs).map (fun p => (p.1, some p.2)) := by
      rw [List.zip_map_right]
      rfl
    rw [hz, process_entries_eq, ← hfst,
      show (fun p : LogEntry × QueryResponse =>
          StoreEvent.lookupInsert (decision_record threshold now p.1 p.2)) =
        StoreEvent.lookupInsert ∘
          (fun p => decision_record threshold now p.1 p.2) from rfl,
      ← List.map_map]
    rfl

/-- C1: for a batch whose search returned one response per entry,
`insert_logs` raises nothing; each entry whose top match scores at least
`insert_sim_threshold` gets a `LookupRecord` pointing at the matched
point's id with that score and is not queued; each entry with a lower
score or an empty match list gets a self-referencing record with
similarity `1` and is queued; the lookup writes happen per entry, in
order, and the single batched vector insertion happens only after all of
them (and only when the queue is nonempty). -/
theorem insert_logs_decision_spec (threshold : ℚ) (now : String)
    (entries : List LogEntry) (rs : List QueryResponse)
    (hlen : rs.length = entries.length) :
    insert_logs threshold now entries (some rs) =
      Except.ok (entries.map (annotateEntry now),
        (entries.zip rs).map
          (fun p => StoreEvent.lookupInsert (decision_record threshold now p.1 p.2)) ++
        (if ((entries.zip rs).filterMap
              (fun p => decision_queued threshold now p.1 p.2)).isEmpty then []
         else [StoreEvent.vectorInserts ((entries.zip rs).filterMap
              (fun p => decision_queued threshold now p.1 p.2))])) ∧
    (∀ e r top rest, r.points = top :: rest → threshold ≤ top.score →
      (decision_record threshold now e r).closest_log_id = top.id ∧
      (decision_record threshold now e r).similarity = top.score ∧
      decision_queued threshold now e r = none) ∧
    (∀ e r top rest, r.points = top :: rest → top.score < threshold →
      (decision_record threshold now e r).closest_log_id =
        (decision_record threshold now e r).log_id ∧
      (decision_record threshold now e r).similarity = 1 ∧
      decision_queued threshold now e r = some (annotateEntry now e)) ∧
    (∀ e r, r.points = [] →
      (decision_record threshold now e r).closest_log_id =
        (decision_record threshold now e r).log_id ∧
      (decision_record threshold now e r).similarity = 1 ∧
      decision_queued threshold now e r = some (annotateEntry now e)) := by
  refine ⟨insert_logs_events_eq threshold now entries rs hlen, ?_, ?_, ?_⟩
  · intro e r top rest hp hs
    simp [decision_record, decision_queued, hp, hs]
  · intro e r top rest hp hs
    simp [decision_record, decision_queued, hp, not_le.mpr hs]
  · intro e r hp
    simp [decision_record, decision_queued, hp]

/-- First sample entry for the concrete pipeline witnesses. -/
def wEntry1 : LogEntry :=
  ⟨"error in pod", [("timestamp", PyObj.strV "tA"),
    ("pod_name", PyObj.strV "podA")], none⟩

/-- Second sample entry for the concrete pipeline witnesses. -/
def wEntry2 : LogEntry := ⟨"fresh line", [], none⟩

/-- A query response whose top match scores `0.97`. -/
def wResp1 : QueryResponse := ⟨[⟨"m1", 97/100, []⟩]⟩

/-- A query response with no points. -/
def wResp2 : QueryResponse := ⟨[]⟩

/-- Witness for C1: the theorem applied to a two-entry batch — one
duplicate at similarity `0.97 ≥ 0.9`, one with no match. -/
theorem insert_logs_decision_spec_witness :
    ([wResp1, wResp2] : List QueryResponse).length =
      ([wEntry1, wEntry2] : List LogEntry).length ∧
    insert_logs (9/10) "T0" [wEntry1, wEntry2] (some [wResp1, wResp2]) =
      Except.ok ([wEntry1, wEntry2].map (annotateEntry "T0"),
        ([wEntry1, wEntry2].zip [wResp1, wResp2]).map
          (fun p => StoreEvent.lookupInsert (decision_record (9/10) "T0" p.1 p.2)) ++
        (if (([wEntry1, wEntry2].zip [wResp1, wResp2]).filterMap
              (fun p => decision_queued (9/10) "T0" p.1 p.2)).isEmpty then []
         else [StoreEvent.vectorInserts (([wEntry1, wEntry2].zip [wResp1, wResp2]).filterMap
              (fun p => decision_queued (9/10) "T0" p.1 p.2))])) :=
  ⟨rfl, (insert_logs_decision_spec (9/10) "T0" [wEntry1, wEntry2]
    [wResp1, wResp2] rfl).1⟩

/-- C2 (code bug evaluation): when the batched search returns `None` (or
an empty list) for a nonempty batch, `insert_logs` substitutes
`[None]*len(log_entries)` and then dereferences `result.points` on
`None`, raising `AttributeError` instead of treating the entries as
"no match". -/
theorem insert_logs_no_result_raises (threshold : ℚ) (now : String)
    (entries : List LogEntry) (h : entries ≠ []) :
    insert_logs threshold now entries none =
      Except.error PyError.attributeError ∧
    insert_logs threshold now entries (some []) =
      Except.error PyError.attributeError := by
  match entries, h with
  | e :: rest, _ => constructor <;> rfl

/-- Witness for C2: the evaluation applied to a one-entry batch. -/
theorem insert_logs_no_result_raises_witness :
    ([wEntry2] : List LogEntry) ≠ [] ∧
    insert_logs (9/10) "T0" [wEntry2] none =
      Except.error PyError.attributeError ∧
    insert_logs (9/10) "T0" [wEntry2] (some []) =
      Except.error PyError.attributeError :=
  ⟨by simp,
   (insert_logs_no_result_raises (9/10) "T0" [wEntry2] (by simp)).1,
   (insert_logs_no_result_raises (9/10) "T0" [wEntry2] (by simp)).2⟩

/-- C10: `insert_logs` mutates every entry of the caller's batch —
`insert_timestamp` is set and `metadata['sim_sync'] = False` — and the
canonical id of every decision record (duplicates included) is the hash
of the text together with the already-annotated metadata. -/
theorem insert_logs_mutation_spec (threshold : ℚ) (now : String)
    (entries : List LogEntry) (rs : List QueryResponse)
    (hlen : rs.length = entries.length) :
    (∃ events, insert_logs threshold now entries (some rs) =
      Except.ok (entries.map (annotateEntry now), events)) ∧
    (∀ e : LogEntry,
      (annotateEntry now e).text = e.text ∧
      (annotateEntry now e).insert_timestamp = some now ∧
      (annotateEntry now e).metadata =
        dictSet e.metadata "sim_sync" (PyObj.boolV false) ∧
      dictGet (annotateEntry now e).metadata "sim_sync" =
        some (PyObj.boolV false)) ∧
    (∀ e r, (decision_record threshold now e r).log_id =
      insertable_hash e.text
        (dictSet e.metadata "sim_sync" (PyObj.boolV false))) := by
  refine ⟨⟨_, insert_logs_events_eq threshold now entries rs hlen⟩, ?_, ?_⟩
  · intro e
    exact ⟨rfl, rfl, rfl, dictGet_dictSet e.metadata _ _⟩
  · intro e r
    cases hp : r.points with
    | nil => simp [decision_record, hp, annotateEntry]
    | cons top rest =>
      by_cases hs : threshold ≤ top.score <;>
        simp [decision_record, hp, hs, annotateEntry]

/-- Witness for C10: the theorem applied to a one-entry batch whose entry
is classified as a duplicate. -/
theorem insert_logs_mutation_spec_witness :
    ([wResp1] : List QueryResponse).length = ([wEntry1] : List LogEntry).length ∧
    (∃ events, insert_logs (9/10) "T0" [wEntry1] (some [wResp1]) =
      Except.ok ([wEntry1].map (annotateEntry "T0"), events)) :=
  ⟨rfl, (insert_logs_mutation_spec (9/10) "T0" [wEntry1] [wResp1] rfl).1⟩

/-- C9 counterexample: a scanned point whose top-2 query returns exactly
one point (its self match) passes the guard but raises `IndexError` at
`result.points[1]`, so "at least one point ⇒ edge appended and no error"
is false as stated. -/
theorem sync_similarty_one_point_counterexample :
    sync_similarty [⟨"p", []⟩] [⟨[⟨"p", 1, []⟩]⟩] =
      Except.error PyError.indexError := rfl

/-- Helper: the edge loop over zipped pairs, when no result has exactly
one point, collects an edge from `points[1]` of each nonempty result. -/
theorem sync_edges_spec (prs : List (ScrollPoint × QueryResponse))
    (h : ∀ pr ∈ prs, pr.2.points.length ≠ 1) :
    sync_edges prs = Except.ok (prs.filterMap (fun pr =>
      match pr.2.points with
      | _ :: second :: _ => some (pr.1.id, second.id, second.score)
      | _ => none)) := by
  induction prs with
  | nil => rfl
  | cons pr rest ih =>
    have h1 := h pr (by simp)
    have h2 : ∀ q ∈ rest, q.2.points.length ≠ 1 :=
      fun q hq => h q (by simp [hq])
    obtain ⟨pt, r⟩ := pr
    match hp : r.points with
    | [] => simp [sync_edges, hp, ih h2]
    | [x] => exact absurd (by simp [hp]) h1
    | x :: y :: tail =>
      simp only [sync_edges, hp, ih h2, List.filterMap_cons]
      rfl

/-- C9 (amended): for every scanned point whose top-2 query returned at
least two points, the relink job appends the edge
`(point id, second point's id, that point's score)` and completes without
raising; results with no points are skipped, and a result with exactly
one point would instead raise `IndexError`. -/
theorem sync_similarty_edges_spec (pts : List ScrollPoint)
    (rs : List QueryResponse) (h : ∀ r ∈ rs, r.points.length ≠ 1) :
    sync_similarty pts rs =
      Except.ok ((pts.zip rs).filterMap (fun pr =>
        match pr.2.points with
        | _ :: second :: _ => some (pr.1.id, second.id, second.score)
        | _ => none)) := by
  unfold sync_similarty
  exact sync_edges_spec (pts.zip rs)
    (fun pr hpr => h pr.2 (List.of_mem_zip hpr).2)

/-- Witness for C9: the amended theorem applied to two scanned points —
one with a two-point result, one with an empty result. -/
theorem sync_similarty_edges_spec_witness :
    (∀ r ∈ ([⟨[⟨"a", 1, []⟩, ⟨"b", 1/2, []⟩]⟩, ⟨[]⟩] : List QueryResponse),
      r.points.length ≠ 1) ∧
    sync_similarty [⟨"p", []⟩, ⟨"q", []⟩]
        [⟨[⟨"a", 1, []⟩, ⟨"b", 1/2, []⟩]⟩, ⟨[]⟩] =
      Except.ok ((([⟨"p", []⟩, ⟨"q", []⟩] : List ScrollPoint).zip
          ([⟨[⟨"a", 1, []⟩, ⟨"b", 1/2, []⟩]⟩, ⟨[]⟩] : List QueryResponse)).filterMap
        (fun pr =>
          match pr.2.points with
          | _ :: second :: _ => some (pr.1.id, second.id, second.score)
          | _ => none)) :=
  ⟨by decide,
   sync_similarty_edges_spec [⟨"p", []⟩, ⟨"q", []⟩]
     [⟨[⟨"a", 1, []⟩, ⟨"b", 1/2, []⟩]⟩, ⟨[]⟩] (by decide)⟩

/-- One minhash update keeps the signature length. -/
theorem minhashUpdate_length (n : ℕ) (a b : List ℕ) (sig : List ℕ) (x : ℕ) :
    (minhashUpdate n a b sig x).length = sig.length := by
  unfold minhashUpdate
  generalize List.range n = l
  induction l generalizing sig with
  | nil => rfl
  | cons i rest ih =>
    rw [List.foldl_cons, ih]
    dsimp only
    split <;> simp

/-- Folding minhash updates keeps the signature length. -/
theorem foldl_minhashUpdate_length (n : ℕ) (a b : List ℕ) (l : List ℕ)
    (sig : List ℕ) :
    (l.foldl (minhashUpdate n a b) sig).length = sig.length := by
  induction l generalizing sig with
  | nil => rfl
  | cons x rest ih => rw [List.foldl_cons, ih, minhashUpdate_length]

/-- The minhash signature always has length `num_hashes`. -/
theorem minhash_signature_length (cfg : EmbCfg) (sh : List ℕ) :
    (minhash_signature cfg sh).length = cfg.num_hashes := by
  unfold minhash_signature
  split
  · simp
  · simp [foldl_minhashUpdate_length]

/-- C5 (amended): the signature produced by `embed` always has length
`num_hashes`, and whenever the shingle set is empty (normalized text
shorter than the shingle window, or the `stop_short_lines` shortcut) the
signature is the all-sentinel vector and `shingle_count` is `0`.  The
converse of the claim's "iff" fails — see the counterexample. -/
theorem embed_length_sentinel (cfg : EmbCfg) (text : String) :
    (embed cfg text).signature.length = cfg.num_hashes ∧
    (shingle cfg.shingle_size (preprocess cfg text) = [] →
      (embed cfg text).signature = List.replicate cfg.num_hashes lshMaxHash ∧
      (embed cfg text).shingle_count = 0) := by
  unfold embed
  dsimp only
  split
  · exact ⟨by simp, fun _ => ⟨rfl, rfl⟩⟩
  · refine ⟨by simp [minhash_signature_length], fun hsh => ?_⟩
    simp only
    rw [hsh]
    exact ⟨by simp [minhash_signature], rfl⟩

/-- The embedder configuration of the sentinel counterexample:
`shingle_size 8`, `num_hashes 1`, `bands 1`, seed `13`, all
normalization flags off. -/
def sentinelCexCfg : EmbCfg := ⟨8, 1, 1, 1, 13, false, false, false, 0⟩

set_option maxRecDepth 4000

/-- C5 counterexample: with seed `13` the text `"00625468"` has exactly
one shingle (`x = 1674174568`), and `(a₀·x + b₀) mod P = 4294967308`
exceeds the sentinel `2^32 − 1`, so the slot is never updated: the
signature is all-sentinel while the shingle set is nonempty and
`shingle_count = 1`.  This refutes "all-sentinel iff the shingle set was
empty". -/
theorem embed_sentinel_counterexample :
    mkEmbedder 8 1 1 13 false false false 0 = Except.ok sentinelCexCfg ∧
    shingle sentinelCexCfg.shingle_size
      (preprocess sentinelCexCfg "00625468") ≠ [] ∧
    (embed sentinelCexCfg "00625468").shingle_count = 1 ∧
    (embed sentinelCexCfg "00625468").signature =
      List.replicate sentinelCexCfg.num_hashes lshMaxHash :=
  ⟨by rfl, by decide, by rfl, by rfl⟩

/-- Embedder configuration for the C5 witness: window `5`, four hashes,
flags off. -/
def wCfgShort : EmbCfg := ⟨5, 4, 2, 2, 42, false, false, false, 0⟩

/-- Witness for C5: the empty-shingle implication applied to the
two-character text `"ab"` with `shingle_size 5`. -/
theorem embed_length_sentinel_witness :
    shingle wCfgShort.shingle_size (preprocess wCfgShort "ab") = [] ∧
    ((embed wCfgShort "ab").signature =
      List.replicate wCfgShort.num_hashes lshMaxHash ∧
     (embed wCfgShort "ab").shingle_count = 0) :=
  ⟨by rfl, (embed_length_sentinel wCfgShort "ab").2 (by rfl)⟩

/-- The normalization order claimed by the spec: mask the original
case-preserved text first, then lowercase, collapse runs of whitespace to
one space, and trim. -/
def claimMaskFirst (text : String) : List Char :=
  stripStr (collapseWs (lowerStr (maskText text.toList)))

/-- Embedder configuration with lowercase, masking and collapsing all
enabled. -/
def allFlagsCfg : EmbCfg := ⟨5, 8, 2, 4, 42, true, true, true, 0⟩

/-- C3 counterexample: on a JWT-shaped token the code path (which
lowercases before masking) turns `eyJ` into `eyj`, the case-sensitive JWT
pattern no longer matches, and the text survives unmasked — while the
claim's mask-first order masks it to `<url>`. -/
theorem preprocess_mask_order_counterexample :
    preprocess allFlagsCfg "eyJabcdefghij.klmnopqrstu.vwxyzabcdef" ≠
      claimMaskFirst "eyJabcdefghij.klmnopqrstu.vwxyzabcdef" ∧
    preprocess allFlagsCfg "eyJabcdefghij.klmnopqrstu.vwxyzabcdef" =
      "eyjabcdefghij.klmnopqrstu.vwxyzabcdef".toList ∧
    claimMaskFirst "eyJabcdefghij.klmnopqrstu.vwxyzabcdef" =
      "<url>".toList := by
  refine ⟨by decide, by decide, by decide⟩

/-- C3 (amended): with lowercasing enabled the normalizer lowercases
BEFORE masking (not after), and applies whitespace collapsing and
trimming after masking:
`normalize(text) = strip(collapse(mask(lower(text))))`. -/
theorem preprocess_order_spec (cfg : EmbCfg) (text : String)
    (hl : cfg.lowercase = true) (hn : cfg.normalize_enabled = true)
    (hc : cfg.collapse_whitespace = true) :
    preprocess cfg text =
      stripStr (collapseWs (maskText (lowerStr text.toList))) := by
  simp [preprocess, hl, hn, hc]

/-- Witness for C3: the order equation applied at a concrete
configuration and text. -/
theorem preprocess_order_spec_witness :
    allFlagsCfg.lowercase = true ∧ allFlagsCfg.normalize_enabled = true ∧
    allFlagsCfg.collapse_whitespace = true ∧
    preprocess allFlagsCfg "Call 911" =
      stripStr (collapseWs (maskText (lowerStr "Call 911".toList))) :=
  ⟨rfl, rfl, rfl, preprocess_order_spec allFlagsCfg "Call 911" rfl rfl rfl⟩

/-- Embedder configuration with masking and collapsing enabled and
lowercasing off. -/
def maskCollapseCfg : EmbCfg := ⟨5, 8, 2, 4, 42, true, false, true, 0⟩

/-- C4 counterexample: in `"abcdefghijkl\na1"` the long-token lookahead
`(?=.*\d)` cannot see the digit past the newline (`.` excludes `\n`), so
the first pass leaves the token; collapsing turns the newline into a
space, and a second pass masks the token to `<id>` — normalization is not
idempotent. -/
theorem preprocess_not_idempotent_counterexample :
    preprocess maskCollapseCfg
        (String.mk (preprocess maskCollapseCfg "abcdefghijkl\na1")) ≠
      preprocess maskCollapseCfg "abcdefghijkl\na1" ∧
    preprocess maskCollapseCfg "abcdefghijkl\na1" =
      "abcdefghijkl a1".toList ∧
    preprocess maskCollapseCfg
        (String.mk (preprocess maskCollapseCfg "abcdefghijkl\na1")) =
      "<id> a1".toList := by
  refine ⟨by decide, by decide, by decide⟩

/-- Codepoint of `Char.ofNat` below the surrogate range. -/
theorem toNat_ofNat_small (n : ℕ) (h : n < 55296) : (Char.ofNat n).toNat = n := by
  unfold Char.ofNat
  rw [dif_pos (Or.inl h)]
  rfl

/-- ASCII lowercasing is idempotent. -/
theorem lowerChar_idem (c : Char) : lowerChar (lowerChar c) = lowerChar c := by
  by_cases h : 65 ≤ c.toNat ∧ c.toNat ≤ 90
  · have ht : (Char.ofNat (c.toNat + 32)).toNat = c.toNat + 32 :=
      toNat_ofNat_small _ (by omega)
    simp only [lowerChar, if_pos h, ht]
    rw [if_neg (by omega)]
  · simp only [lowerChar, if_neg h]

/-- Characters at codepoints `≥ 33` are not whitespace. -/
theorem isPySpace_false_of_ge (c : Char) (h : 33 ≤ c.toNat) :
    isPySpace c = false := by
  have key : ∀ d : Char, d.toNat < 33 → ¬(c = d) := by
    intro d hd hc
    rw [hc] at h
    omega
  unfold isPySpace
  simp only [Bool.or_eq_false_iff, decide_eq_false_iff_not]
  exact ⟨⟨⟨⟨⟨key ' ' (by decide), key '\t' (by decide)⟩, key '\n' (by decide)⟩,
    key '\r' (by decide)⟩, key '\x0b' (by decide)⟩, key '\x0c' (by decide)⟩

/-- ASCII lowercasing does not change whether a character is whitespace. -/
theorem isPySpace_lowerChar (c : Char) : isPySpace (lowerChar c) = isPySpace c := by
  by_cases h : 65 ≤ c.toNat ∧ c.toNat ≤ 90
  · have ht : (Char.ofNat (c.toNat + 32)).toNat = c.toNat + 32 :=
      toNat_ofNat_small _ (by omega)
    simp only [lowerChar, if_pos h]
    rw [isPySpace_false_of_ge _ (by rw [ht]; omega),
      isPySpace_false_of_ge c (by omega)]
  · simp only [lowerChar, if_neg h]

/-- Adjacent characters are never both whitespace (the invariant the
collapsing pass establishes). -/
def spaceAdj (a b : Char) : Prop := ¬(isPySpace a = true ∧ isPySpace b = true)

/-- Every character of the collapsed text is a space or came from the
input. -/
theorem mem_collapseWs : ∀ (s : List Char) (c : Char),
    c ∈ collapseWs s → c = ' ' ∨ c ∈ s := by
  intro s
  induction s with
  | nil => intro c hc; simp [collapseWs] at hc
  | cons c1 rest ih =>
    intro c hc
    cases rest with
    | nil =>
      by_cases h1 : isPySpace c1 = true
      · simp only [collapseWs, if_pos h1, List.mem_singleton] at hc
        exact Or.inl hc
      · simp only [collapseWs, if_neg h1, List.mem_singleton] at hc
        exact Or.inr (by simp [hc])
    | cons c2 rest2 =>
      by_cases h1 : isPySpace c1 = true
      · by_cases h2 : isPySpace c2 = true
        · rcases ih c (by simpa [collapseWs, h1, h2] using hc) with h | h
          · exact Or.inl h
          · exact Or.inr (List.mem_cons_of_mem _ h)
        · rcases (by simpa [collapseWs, h1, h2] using hc :
              c = ' ' ∨ c ∈ collapseWs (c2 :: rest2)) with h | h
          · exact Or.inl h
          · rcases ih c h with h' | h'
            · exact Or.inl h'
            · exact Or.inr (List.mem_cons_of_mem _ h')
      · rcases (by simpa [collapseWs, h1] using hc :
            c = c1 ∨ c ∈ collapseWs (c2 :: rest2)) with h | h
        · exact Or.inr (by simp [h])
        · rcases ih c h with h' | h'
          · exact Or.inl h'
          · exact Or.inr (List.mem_cons_of_mem _ h')

/-- All whitespace in the collapsed text is the single space. -/
theorem onlySpace_collapseWs : ∀ (s : List Char) (c : Char),
    c ∈ collapseWs s → isPySpace c = true → c = ' ' := by
  intro s
  induction s with
  | nil => intro c hc; simp [collapseWs] at hc
  | cons c1 rest ih =>
    intro c hc hsp
    cases rest with
    | nil =>
      by_cases h1 : isPySpace c1 = true
      · simpa [collapseWs, h1] using hc
      · have hcc : c = c1 := by simpa [collapseWs, h1] using hc
        rw [hcc] at hsp
        exact absurd hsp h1
    | cons c2 rest2 =>
      by_cases h1 : isPySpace c1 = true
      · by_cases h2 : isPySpace c2 = true
        · exact ih c (by simpa [collapseWs, h1, h2] using hc) hsp
        · rcases (by simpa [collapseWs, h1, h2] using hc :
              c = ' ' ∨ c ∈ collapseWs (c2 :: rest2)) with h | h
          · exact h
          · exact ih c h hsp
      · rcases (by simpa [collapseWs, h1] using hc :
            c = c1 ∨ c ∈ collapseWs (c2 :: rest2)) with h | h
        · rw [h] at hsp; exact absurd hsp (by simp [h1])
        · exact ih c h hsp

/-- The head of the collapsed text is the head character when it is not
whitespace. -/
theorem collapseWs_head_nonspace (c : Char) (rest : List Char)
    (h : ¬ isPySpace c = true) : (collapseWs (c :: rest)).head? = some c := by
  cases rest <;> simp [collapseWs, h]

/-- The collapsed text never has two adjacent whitespace characters. -/
theorem chain_collapseWs : ∀ s : List Char,
    List.Chain' spaceAdj (collapseWs s) := by
  intro s
  induction s with
  | nil => simp [collapseWs]
  | cons c1 rest ih =>
    cases rest with
    | nil =>
      by_cases h1 : isPySpace c1 = true <;> simp [collapseWs, h1]
    | cons c2 rest2 =>
      by_cases h1 : isPySpace c1 = true
      · by_cases h2 : isPySpace c2 = true
        · simpa [collapseWs, h1, h2] using ih
        · rw [show collapseWs (c1 :: c2 :: rest2) =
              ' ' :: collapseWs (c2 :: rest2) from by simp [collapseWs, h1, h2]]
          rw [List.chain'_cons']
          refine ⟨?_, ih⟩
          intro y hy
          rw [collapseWs_head_nonspace c2 rest2 (by simp [h2])] at hy
          simp only [Option.mem_def, Option.some.injEq] at hy
          subst hy
          exact fun hcon => h2 hcon.2
      · rw [show collapseWs (c1 :: c2 :: rest2) =
            c1 :: collapseWs (c2 :: rest2) from by simp [collapseWs, h1]]
        rw [List.chain'_cons']
        refine ⟨?_, ih⟩
        intro y _
        exact fun hcon => h1 hcon.1

/-- Collapsing is the identity on text whose whitespace is single spaces
with no two adjacent. -/
theorem collapseWs_eq_self : ∀ s : List Char,
    (∀ c ∈ s, isPySpace c = true → c = ' ') →
    List.Chain' spaceAdj s → collapseWs s = s := by
  intro s
  induction s with
  | nil => intro _ _; rfl
  | cons c1 rest ih =>
    intro h1 h2
    cases rest with
    | nil =>
      by_cases hs : isPySpace c1 = true
      · simp [collapseWs, hs, h1 c1 (by simp) hs]
      · simp [collapseWs, hs]
    | cons c2 rest2 =>
      by_cases hs : isPySpace c1 = true
      · by_cases hs2 : isPySpace c2 = true
        · exact absurd ⟨hs, hs2⟩ (List.chain'_cons.mp h2).1
        · have hc1 : c1 = ' ' := h1 c1 (by simp) hs
          rw [show collapseWs (c1 :: c2 :: rest2) =
              ' ' :: collapseWs (c2 :: rest2) from by simp [collapseWs, hs, hs2]]
          rw [ih (fun c hc => h1 c (by simp [hc])) (List.chain'_cons.mp h2).2, hc1]
      · rw [show collapseWs (c1 :: c2 :: rest2) =
            c1 :: collapseWs (c2 :: rest2) from by simp [collapseWs, hs]]
        rw [ih (fun c hc => h1 c (by simp [hc])) (List.chain'_cons.mp h2).2]

/-- `stripStr` is dropping whitespace from the left and then from the
right. -/
theorem stripStr_eq_rdrop (s : List Char) :
    stripStr s = List.rdropWhile (fun c => isPySpace c)
      (List.dropWhile (fun c => isPySpace c) s) := rfl

/-- The stripped text sits inside the original text. -/
theorem stripStr_inside (s : List Char) : stripStr s <:+: s := by
  rw [stripStr_eq_rdrop]
  exact (List.rdropWhile_prefix _ _).isInfix.trans
    (List.dropWhile_suffix _).isInfix

/-- Stripping is idempotent. -/
theorem stripStr_idem (s : List Char) : stripStr (stripStr s) = stripStr s := by
  rw [stripStr_eq_rdrop, stripStr_eq_rdrop]
  have hdu : List.dropWhile (fun c => isPySpace c)
      (List.rdropWhile (fun c => isPySpace c)
        (List.dropWhile (fun c => isPySpace c) s)) =
      List.rdropWhile (fun c => isPySpace c)
        (List.dropWhile (fun c => isPySpace c) s) := by
    cases hr : List.rdropWhile (fun c => isPySpace c)
        (List.dropWhile (fun c => isPySpace c) s) with
    | nil => rfl
    | cons a as =>
      have hpref := List.rdropWhile_prefix (fun c => isPySpace c)
        (List.dropWhile (fun c => isPySpace c) s)
      rw [hr] at hpref
      obtain ⟨t, ht⟩ := hpref
      have hhd := List.head?_dropWhile_not (fun c => isPySpace c) s
      rw [← ht] at hhd
      simp only [List.cons_append, List.head?_cons] at hhd
      have hpa : isPySpace a = false := hhd
      simp [List.dropWhile_cons, hpa]
  rw [hdu, List.rdropWhile_idempotent]

/-- Collapse-then-strip is idempotent. -/
theorem strip_collapse_idem (t : List Char) :
    stripStr (collapseWs (stripStr (collapseWs t))) =
      stripStr (collapseWs t) := by
  have hinf := stripStr_inside (collapseWs t)
  have hos : ∀ c ∈ stripStr (collapseWs t), isPySpace c = true → c = ' ' :=
    fun c hc => onlySpace_collapseWs t c (hinf.sublist.subset hc)
  have hch := List.Chain'.infix (chain_collapseWs t) hinf
  rw [collapseWs_eq_self _ hos hch, stripStr_idem]

/-- Every character produced by the mask-off normalizer is fixed by
lowercasing. -/
theorem lowerStr_fix_strip_collapse (t : List Char) :
    lowerStr (stripStr (collapseWs (lowerStr t))) =
      stripStr (collapseWs (lowerStr t)) := by
  have hfix : ∀ c ∈ stripStr (collapseWs (lowerStr t)), lowerChar c = c := by
    intro c hc
    have hc2 := (stripStr_inside (collapseWs (lowerStr t))).sublist.subset hc
    rcases mem_collapseWs (lowerStr t) c hc2 with h | h
    · rw [h]; decide
    · rcases List.mem_map.mp h with ⟨d, _, rfl⟩
      exact lowerChar_idem d
  have hmap : List.map lowerChar (stripStr (collapseWs (lowerStr t))) =
      List.map id (stripStr (collapseWs (lowerStr t))) :=
    List.map_congr_left (fun c hc => hfix c hc)
  show List.map lowerChar (stripStr (collapseWs (lowerStr t))) =
    stripStr (collapseWs (lowerStr t))
  rw [hmap, List.map_id]

/-- C4 (amended): normalization is deterministic and, when masking is
disabled, idempotent for any lowercase/collapse flags:
`normalize(normalize(t)) = normalize(t)`.  With masking enabled
idempotence fails (see the counterexample: collapsing a newline to a
space lets the long-token lookahead fire on the second pass). -/
theorem preprocess_idempotent_no_mask (cfg : EmbCfg) (text : String)
    (h : cfg.normalize_enabled = false) :
    preprocess cfg (String.mk (preprocess cfg text)) =
      preprocess cfg text := by
  have hpre : ∀ t : String, preprocess cfg t =
      if cfg.collapse_whitespace then
        stripStr (collapseWs (if cfg.lowercase then lowerStr t.toList
          else t.toList))
      else if cfg.lowercase then lowerStr t.toList else t.toList := by
    intro t
    unfold preprocess
    rw [h]
    simp
  rw [hpre, hpre]
  cases hl : cfg.lowercase <;> cases hc : cfg.collapse_whitespace
  · rfl
  · exact strip_collapse_idem text.toList
  · show lowerStr (lowerStr text.toList) = lowerStr text.toList
    unfold lowerStr
    rw [List.map_map]
    exact List.map_congr_left (fun c _ => lowerChar_idem c)
  · show stripStr (collapseWs (lowerStr (stripStr (collapseWs
      (lowerStr text.toList))))) = stripStr (collapseWs (lowerStr text.toList))
    rw [lowerStr_fix_strip_collapse, strip_collapse_idem]

/-- Embedder configuration with masking disabled but lowercasing and
collapsing enabled. -/
def noMaskCfg : EmbCfg := ⟨5, 8, 2, 4, 42, false, true, true, 0⟩

/-- Witness for C4: idempotence applied at a concrete mask-off
configuration and text. -/
theorem preprocess_idempotent_no_mask_witness :
    noMaskCfg.normalize_enabled = false ∧
    preprocess noMaskCfg (String.mk (preprocess noMaskCfg " AB  cd\n x ")) =
      preprocess noMaskCfg " AB  cd\n x " :=
  ⟨rfl, preprocess_idempotent_no_mask noMaskCfg " AB  cd\n x " rfl⟩

end HTLL
